import Mathlib

/-!
Shallow embedding of `lib/floodfill.py` (tile-based flood fill for MyPaint)
together with proofs about its behaviour.  Pure data is modelled directly;
in-place mutation of Python dicts and numpy buffers is modelled by explicit
state passing.  Collaborators implemented outside this module (the
`mypaintlib` C++ primitives, morphology and blur) are parameters of the
embedding; helpers from sibling modules that are not part of the sources
(`lib.helpers.clamp`, `lib.fill_common`) are modelled from the spec, as
marked on their doc comments.
-/

namespace Floodfill

/-- `TILE_SIZE = N = myplib.TILE_SIZE` (64 in the reference build). -/
def N : Nat := 64

/-- `_OPAQUE` from `lib.fill_common`: the maximum valid fill alpha, `1 <<< 15`. -/
def OPAQUE : Nat := 1 <<< 15

/-- Tile coordinates: signed integer pairs `(tx, ty)`. -/
abbrev Coord : Type := Int × Int

/-- An N by N matrix of 16-bit values, represented extensionally. -/
abbrev TMat : Type := Nat → Nat → Nat

/-- `np.full((N, N), v, 'uint16')`. -/
def tmConst (v : Nat) : TMat := fun _ _ => v

/-- `np.zeros((N, N), 'uint16')`. -/
def tmZeros : TMat := tmConst 0

/-- A tile value.  The three process-wide sentinel tiles are distinguished
constructors, mirroring the Python identity tests (`t is _FULL_TILE`,
`t is _EMPTY_TILE`, `t is _GAPLESS_TILE`); any other numpy buffer is `buf`.
`full` stands for `_FULL_TILE` (every pixel `OPAQUE`), `empty` for
`_EMPTY_TILE` (every pixel 0), `gapless` for `_GAPLESS_TILE` (every pixel
`2*N*N`). -/
inductive Tile : Type where
  | full
  | empty
  | gapless
  | buf (data : TMat)

/-- `is_full(tile)`: identity test against `_FULL_TILE`. -/
def Tile.isFull : Tile → Bool
  | .full => true
  | _ => false

/-- Reading pixel `[y][x]` of a tile; the sentinel constructors carry their
constant contents. -/
def Tile.read : Tile → Nat → Nat → Nat
  | .full, _, _ => OPAQUE
  | .empty, _, _ => 0
  | .gapless, _, _ => 2 * N * N
  | .buf d, y, x => d y x

/-- Python dicts keyed by tile coordinate, as association lists whose keys
are unique (insertion replaces any previous binding). -/
abbrev AMap (α : Type) : Type := List (Coord × α)

def AMap.find? {α : Type} : AMap α → Coord → Option α
  | [], _ => none
  | (k', v) :: rest, k => if k' = k then some v else AMap.find? rest k

/-- `m[k] = v` on a Python dict. -/
def AMap.insert {α : Type} (m : AMap α) (k : Coord) (v : α) : AMap α :=
  (k, v) :: m.filter fun p => decide (p.1 ≠ k)

/-- `k in m` on a Python dict. -/
def AMap.holds {α : Type} (m : AMap α) (k : Coord) : Bool :=
  (m.find? k).isSome

/-- Modelled from the spec: `lib.helpers.clamp` restricts a value to the
inclusive interval between the two bounds. -/
def clampI (v lo hi : Int) : Int := min (max v lo) hi

/-- Modelled from the spec: `lib.helpers.clamp` on the rational used for the
tolerance. -/
def clampQ (v lo hi : Rat) : Rat := min (max v lo) hi

/-- Modelled from the spec (section 4.1): `lib.fill_common.TileBoundingBox`,
derived from a pixel rectangle; stores min and max tile coordinates and the
per-edge in-tile pixel limits. -/
structure TileBoundingBox : Type where
  min_tx : Int
  min_ty : Int
  max_tx : Int
  max_ty : Int
  min_px : Nat
  min_py : Nat
  max_px : Nat
  max_py : Nat

/-- Modelled from the spec (section 4.1): construct the tile bounding box from
the pixel rectangle `(x, y, w, h)` by floor division and modulo. -/
def TileBoundingBox.ofRect (x y w h : Int) : TileBoundingBox where
  min_tx := Int.fdiv x (N : Int)
  min_ty := Int.fdiv y (N : Int)
  max_tx := Int.fdiv (x + w - 1) (N : Int)
  max_ty := Int.fdiv (y + h - 1) (N : Int)
  min_px := (Int.fmod x (N : Int)).toNat
  min_py := (Int.fmod y (N : Int)).toNat
  max_px := (Int.fmod (x + w - 1) (N : Int)).toNat
  max_py := (Int.fmod (y + h - 1) (N : Int)).toNat

/-- Modelled from the spec (section 4.1): `outside(tc)` holds when `tc` is
strictly beyond the min and max tile coordinates. -/
def TileBoundingBox.outside (b : TileBoundingBox) (tc : Coord) : Bool :=
  tc.1 < b.min_tx || tc.1 > b.max_tx || tc.2 < b.min_ty || tc.2 > b.max_ty

/-- Modelled from the spec (section 4.1): `crossing(tc)` holds when `tx` or
`ty` equals a min or max tile coordinate. -/
def TileBoundingBox.crossing (b : TileBoundingBox) (tc : Coord) : Bool :=
  tc.1 == b.min_tx || tc.1 == b.max_tx || tc.2 == b.min_ty || tc.2 == b.max_ty

/-- Modelled from the spec (section 4.1): per-tile pixel clip bounds
`(min_px, min_py, max_px, max_py)`: full `(0, 0, N-1, N-1)` except on bbox
edge tiles. -/
def TileBoundingBox.tile_bounds (b : TileBoundingBox) (tc : Coord) :
    Nat × Nat × Nat × Nat :=
  (if tc.1 == b.min_tx then b.min_px else 0,
   if tc.2 == b.min_ty then b.min_py else 0,
   if tc.1 == b.max_tx then b.max_px else N - 1,
   if tc.2 == b.max_ty then b.max_py else N - 1)

/-- Modelled from the spec (section 4.6): `lib.fill_common.nine_grid` lists
the 3x3 neighbourhood of a tile — center first, then the orthogonal
neighbours north, east, south, west, then the diagonals. -/
def nine_grid (tc : Coord) : List Coord :=
  [tc,
   (tc.1, tc.2 - 1), (tc.1 + 1, tc.2), (tc.1, tc.2 + 1), (tc.1 - 1, tc.2),
   (tc.1 + 1, tc.2 - 1), (tc.1 + 1, tc.2 + 1),
   (tc.1 - 1, tc.2 + 1), (tc.1 - 1, tc.2 - 1)]

/-- `orthogonal(tile_coord)`: the slice `nine_grid(tile_coord)[1:5]`, i.e.
the coordinates north, east, south and west of the input, in that order. -/
def orthogonal (tc : Coord) : List Coord :=
  ((nine_grid tc).drop 1).take 4

/-- `enqueue_overflows(queue, tile_coord, seeds, tiles_bbox, *p)`.
`σ` is the type of one per-edge seed container and `π` the type of the
per-neighbour payload carried by `*p` (instantiated with `Unit` at call
sites where `p` is empty); `se` decides Python sequence truthiness
(emptiness) for `σ`.  A record is appended iff its seed container is truthy
(non-empty) and the neighbour coordinate is not outside the bounding box. -/
def enqueue_overflows {σ π : Type} (se : σ → Bool)
    (queue : List (Coord × σ × π)) (tile_coord : Coord) (seeds : List σ)
    (tiles_bbox : TileBoundingBox) (p : List π) : List (Coord × σ × π) :=
  ((orthogonal tile_coord).zip (seeds.zip p)).foldl
    (fun q edge =>
      if !se edge.2.1 && !tiles_bbox.outside edge.1 then q ++ [edge] else q)
    queue

/-- `myplib.edges`: edge constants, indexed so that the five-entry tables
`FULL_OVERFLOWS` and `const_overflows` are indexed by them (north, east,
south, west, none). -/
def edgeNorth : Nat := 0

def edgeEast : Nat := 1

def edgeSouth : Nat := 2

def edgeWest : Nat := 3

def edgeNone : Nat := 4

/-- Seed payload of a scanline queue record: the initial `(px, py)` pixel
tuple, or a list of inclusive `(start, end)` ranges along the origin edge
(the empty tuples in `FULL_OVERFLOWS` are empty range lists). -/
inductive ScanSeeds : Type where
  | startPx (px py : Nat)
  | ranges (rs : List (Nat × Nat))

/-- Python sequence truthiness for scanline seed payloads. -/
def ScanSeeds.isEmptyS : ScanSeeds → Bool
  | .startPx _ _ => false
  | .ranges rs => rs.isEmpty

/-- The source surface: readonly `tile_request` yields a source tile of the
abstract type `σ`; `pixel t px py` reads the four channels `t[py][px]`;
`isEmptyRGBA` is the identity test against the module-level `_EMPTY_RGBA`
object. -/
structure SrcSurface (σ : Type) : Type where
  tiles : Coord → σ
  pixel : σ → Nat → Nat → Nat × Nat × Nat × Nat
  isEmptyRGBA : σ → Bool

/-- The behaviour of a `myplib.Filler` instance (external C++ collaborator):
`tile_uniformity` classifies a source tile, returning the uniform fill alpha
or `none`; `fill` runs the scanline fill kernel on one tile, returning the
updated output buffer and the four per-edge overflow range lists in
north, east, south, west order; `flood` scores a whole tile. -/
structure Filler (σ : Type) : Type where
  tile_uniformity : Bool → σ → Option Nat
  fill : σ → Tile → ScanSeeds → Nat → Nat × Nat × Nat × Nat →
    TMat × List (List (Nat × Nat))
  flood : σ → TMat

/-- `_TileFillSkipper.FULL_OVERFLOWS`: five overflow patterns indexed by the
origin edge; the entry for the origin edge is empty, the others are the full
edge range `[(0, N-1)]` (all four for `from within`). -/
def FULL_OVERFLOWS : List (List (List (Nat × Nat))) :=
  [[[], [(0, N - 1)], [(0, N - 1)], [(0, N - 1)]],
   [[(0, N - 1)], [], [(0, N - 1)], [(0, N - 1)]],
   [[(0, N - 1)], [(0, N - 1)], [], [(0, N - 1)]],
   [[(0, N - 1)], [(0, N - 1)], [(0, N - 1)], []],
   [[(0, N - 1)], [(0, N - 1)], [(0, N - 1)], [(0, N - 1)]]]

/-- Mutable state of a `_TileFillSkipper`: the per-fill uniform tile cache
(keyed by alpha) and the `final` set. -/
structure SkipState : Type where
  uniform_tiles : List (Nat × Tile)
  final : List Coord

/-- `_TileFillSkipper.uniform_tile(alpha)`: return the cached uniform alpha
tile, creating it on a miss. -/
def uniform_tile (st : SkipState) (alpha : Nat) : Tile × SkipState :=
  match st.uniform_tiles.lookup alpha with
  | some t => (t, st)
  | none =>
    let t : Tile := .buf (tmConst alpha)
    (t, { st with uniform_tiles := (alpha, t) :: st.uniform_tiles })

/-- `_TileFillSkipper.check(tile_coord, src_tile, filled, from_dir)`:
returns the overflows when the tile could be handled immediately (`none`
models the Python `None` forcing the normal fill), together with the updated
`filled` map and skipper state. -/
def skipper_check {σ : Type} (tiles_bbox : TileBoundingBox) (filler : Filler σ)
    (src : SrcSurface σ) (tile_coord : Coord) (src_tile : σ)
    (filled : AMap Tile) (from_dir : Nat) (st : SkipState) :
    Option (List (List (Nat × Nat))) × AMap Tile × SkipState :=
  if filled.holds tile_coord || tiles_bbox.crossing tile_coord then
    (none, filled, st)
  else
    match filler.tile_uniformity (src.isEmptyRGBA src_tile) src_tile with
    | none => (none, filled, st)
    | some alpha =>
      let st := { st with final := tile_coord :: st.final }
      if alpha = 0 then
        (some [[], [], [], []], filled, st)
      else if alpha = OPAQUE then
        (some ((FULL_OVERFLOWS.drop from_dir).headD []),
         filled.insert tile_coord .full, st)
      else
        let ts := uniform_tile st alpha
        (some ((FULL_OVERFLOWS.drop from_dir).headD []),
         filled.insert tile_coord ts.1, ts.2)

/-- `inv_edges` in `scanline_fill`: the origin edge seen by the neighbour at
ordinal 0..3 (south, west, north, east). -/
def inv_edges : List Nat := [edgeSouth, edgeWest, edgeNorth, edgeEast]

/-- State of the scanline fill loop. -/
structure ScanState : Type where
  tileq : List (Coord × ScanSeeds × Nat)
  filled : AMap Tile
  skip : SkipState

/-- `if tile_coord not in filled: filled[tile_coord] = np.zeros((N, N))`. -/
def ensure_filled (filled : AMap Tile) (tc : Coord) : AMap Tile :=
  if filled.holds tc then filled else filled.insert tc (.buf tmZeros)

/-- The output buffer argument (`filled[tile_coord]`) handed to
`filler.fill` by the scanline loop after the ensure step. -/
def scan_fill_target (filled : AMap Tile) (tc : Coord) : Tile :=
  ((ensure_filled filled tc).find? tc).getD (.buf tmZeros)

/-- One iteration of the `while len(tileq) > 0` loop of `scanline_fill`. -/
def scanline_step {σ : Type} (src : SrcSurface σ) (tiles_bbox : TileBoundingBox)
    (filler : Filler σ) (st : ScanState) : ScanState :=
  match st.tileq with
  | [] => st
  | (tile_coord, seeds, from_dir) :: rest =>
    if st.skip.final.contains tile_coord then
      { st with tileq := rest }
    else
      let src_tile := src.tiles tile_coord
      let chk := skipper_check tiles_bbox filler src tile_coord src_tile
        st.filled from_dir st.skip
      match chk.1 with
      | some overflows =>
        { tileq := enqueue_overflows ScanSeeds.isEmptyS rest tile_coord
            (overflows.map .ranges) tiles_bbox inv_edges,
          filled := chk.2.1, skip := chk.2.2 }
      | none =>
        let filled := ensure_filled chk.2.1 tile_coord
        let fr := filler.fill src_tile (scan_fill_target chk.2.1 tile_coord)
          seeds from_dir (tiles_bbox.tile_bounds tile_coord)
        { tileq := enqueue_overflows ScanSeeds.isEmptyS rest tile_coord
            (fr.2.map .ranges) tiles_bbox inv_edges,
          filled := filled.insert tile_coord (.buf fr.1), skip := chk.2.2 }

/-- Run the scanline loop to completion, with fuel standing in for the
absent termination argument (`none` means the fuel ran out). -/
def scanline_run {σ : Type} (src : SrcSurface σ) (tiles_bbox : TileBoundingBox)
    (filler : Filler σ) : Nat → ScanState → Option ScanState
  | 0, st => if st.tileq.isEmpty then some st else none
  | fuel + 1, st =>
    if st.tileq.isEmpty then some st
    else scanline_run src tiles_bbox filler fuel
      (scanline_step src tiles_bbox filler st)

/-- The dynamic shape of a Python return value of the fill drivers: a bare
dict of filled tiles, or a 2-tuple of that dict and a set of coordinates. -/
inductive PyRet : Type where
  | map (m : AMap Tile)
  | pair (m : AMap Tile) (s : List Coord)

/-- `scanline_fill(src, init, tiles_bbox, filler)`: seed the queue with
`((tx, ty), (px, py), edges.none)`, run the loop, and return the value the
Python function returns. -/
def scanline_fill {σ : Type} (src : SrcSurface σ) (init : Coord × Nat × Nat)
    (tiles_bbox : TileBoundingBox) (filler : Filler σ) (fuel : Nat) :
    Option PyRet :=
  (scanline_run src tiles_bbox filler fuel
    { tileq := [(init.1, .startPx init.2.1 init.2.2, edgeNone)],
      filled := [], skip := { uniform_tiles := [], final := [] } }).map
    fun st => .map st.filled

/-- One seed of a gap-closing overflow list: `(x, y, distance)`. -/
abbrev GapSeed : Type := Nat × Nat × Nat

/-- Seed payload of a gap-closing main-queue record: the initial `(px, py)`
pixel tuple, a tuple of edge constants from `const_overflows`, or a list of
`(x, y, distance)` seeds from a fill overflow. -/
inductive GapSeeds : Type where
  | initPx (px py : Nat)
  | edgeTup (es : List Nat)
  | seedList (s : List GapSeed)

/-- Python sequence truthiness for gap-closing seed payloads. -/
def GapSeeds.isEmptyS : GapSeeds → Bool
  | .initPx _ _ => false
  | .edgeTup es => es.isEmpty
  | .seedList s => s.isEmpty

/-- `isinstance(seeds, tuple)` on a gap-closing seed payload. -/
def GapSeeds.isTuple : GapSeeds → Bool
  | .initPx _ _ => true
  | .edgeTup _ => true
  | .seedList _ => false

/-- `len(seeds)` on a gap-closing seed payload. -/
def GapSeeds.len : GapSeeds → Nat
  | .initPx _ _ => 2
  | .edgeTup es => es.length
  | .seedList s => s.length

/-- `seeds[0]` on an edge-constant tuple (the only payload it is read from:
a one-element `const_overflows` entry). -/
def GapSeeds.first : GapSeeds → Nat
  | .edgeTup es => es.headD 0
  | _ => 0

/-- Seed payload of an unseep-queue record: the `fill_edges` edge list from
a gap-closing fill, or coordinate seeds from an unseep overflow. -/
inductive USeeds : Type where
  | edges (es : List Nat)
  | coords (cs : List (Nat × Nat))

/-- Python sequence truthiness for unseep seed payloads. -/
def USeeds.isEmptyS : USeeds → Bool
  | .edges es => es.isEmpty
  | .coords cs => cs.isEmpty

/-- `GapClosingOptions`: the caller-provided parameter container. -/
structure GapClosingOptions : Type where
  max_gap_size : Int
  retract_seeps : Bool
  deriving DecidableEq

/-- The behaviour of a `myplib.GapClosingFiller` built with given
construction arguments (external C++ collaborator).  `fill` returns the
updated output buffer, four overflow seed lists, the `fill_edges` list of
edges along which the fill bled into gap-marked pixels, and the number of
pixels filled.  `unseep` returns the updated output buffer, four overflow
coordinate lists and the number of erased pixels. -/
structure GCFillerOps : Type where
  fill : Tile → Tile → Tile → GapSeeds → Nat × Nat × Nat × Nat →
    TMat × List (List GapSeed) × List Nat × Nat
  unseep : Tile → Tile → USeeds → Bool →
    TMat × List (List (Nat × Nat)) × Nat

/-- Modelled from the spec: the gap-geometry primitives
`myplib.no_corner_gaps` and the gap-marking action of `myplib.find_gaps`
(with its `DistanceBucket`) are implemented outside this module; the spec
(section 4.6) leaves them abstract, so they are parameters. -/
structure GapGeometry : Type where
  no_corner_gaps : Int → Tile → Tile → Tile → Tile → Bool
  mark_gaps : TMat → List Tile → TMat

/-- Modelled from the spec (section 4.6): `myplib.find_gaps(distbucket, buf,
*grid)` searches the 3x3 alpha grid for gaps and marks their sizes in `buf`,
returning whether any gap was found; per the spec the distance pass finds no
gap exactly when the center alpha tile is `FULL_TILE` and the corner-gap
test on the north, east, south and west neighbours passes, and `buf` is only
written when gaps are found. -/
def find_gaps (gg : GapGeometry) (max_gap_size : Int) (buf : TMat)
    (grid : List Tile) : Bool × TMat :=
  if (grid.headD .empty).isFull
      && gg.no_corner_gaps max_gap_size
        ((grid.drop 1).headD .empty) ((grid.drop 2).headD .empty)
        ((grid.drop 3).headD .empty) ((grid.drop 4).headD .empty) then
    (false, buf)
  else
    (true, gg.mark_gaps buf grid)

/-- The alpha tile `prep_alphas` stores for one neighbourhood coordinate. -/
def prep_alpha_tile {σ : Type} (filler : Filler σ) (src : SrcSurface σ)
    (ntc : Coord) : Tile :=
  let src_tile := src.tiles ntc
  match filler.tile_uniformity (src.isEmptyRGBA src_tile) src_tile with
  | some alpha =>
    if alpha = OPAQUE then .full
    else if alpha = 0 then .empty
    else .buf (tmConst alpha)
  | none => .buf (filler.flood src_tile)

/-- `prep_alphas(tile_coord, full_alphas, src, filler)`: ensure alpha data
exists for the tile and its eight neighbours. -/
def prep_alphas {σ : Type} (filler : Filler σ) (src : SrcSurface σ)
    (tile_coord : Coord) (full_alphas : AMap Tile) : AMap Tile :=
  (nine_grid tile_coord).foldl
    (fun fa ntc =>
      if fa.holds ntc then fa else fa.insert ntc (prep_alpha_tile filler src ntc))
    full_alphas

/-- `const_overflows` in `gap_closing_fill`: five overflow patterns of
edge-constant tuples, indexed by the origin edge. -/
def const_overflows : List (List GapSeeds) :=
  [[.edgeTup [edgeSouth], .edgeTup [edgeWest], .edgeTup [], .edgeTup [edgeEast]],
   [.edgeTup [edgeSouth], .edgeTup [edgeWest], .edgeTup [edgeNorth], .edgeTup []],
   [.edgeTup [], .edgeTup [edgeWest], .edgeTup [edgeNorth], .edgeTup [edgeEast]],
   [.edgeTup [edgeSouth], .edgeTup [], .edgeTup [edgeNorth], .edgeTup [edgeEast]],
   [.edgeTup [edgeSouth], .edgeTup [edgeWest], .edgeTup [edgeNorth], .edgeTup [edgeEast]]]

/-- State of the gap-closing main loop.  `dist_data` is the pending distance
buffer the Python loop keeps in a local and reuses after a gapless tile;
`gc_filler_args` are the construction arguments of the current
`GapClosingFiller` (it is rebuilt when seep retraction is disabled). -/
structure GapState : Type where
  full_alphas : AMap Tile
  distances : AMap Tile
  unseep_q : List (Coord × USeeds × Bool)
  filled : AMap Tile
  final : List Coord
  tileq : List (Coord × GapSeeds × Unit)
  total_px : Int
  options : GapClosingOptions
  gc_filler_args : Int × Bool
  dist_data : Option TMat

/-- `init_x, init_y = seeds`: unpack a two-element seed tuple (only the
initial `(px, py)` payload reaches this unpacking in a run). -/
def GapSeeds.unpack2 : GapSeeds → Nat × Nat
  | .initPx px py => (px, py)
  | .edgeTup es => (es.headD 0, (es.drop 1).headD 0)
  | .seedList _ => (0, 0)

/-- The `if tile_coord not in distances:` block of the gap-closing loop
(alpha preparation, gap distance computation, the full-tile shortcut and
the creation of the output tile).  `Sum.inl` models the `continue` of the
shortcut; `Sum.inr` falls through to the fill phase. -/
def gap_prepare {σ : Type} (gg : GapGeometry) (src : SrcSurface σ)
    (filler : Filler σ) (max_gap : Int) (tiles_bbox : TileBoundingBox)
    (tile_coord : Coord) (seeds : GapSeeds) (st : GapState) :
    GapState ⊕ GapState :=
  if st.distances.holds tile_coord then .inr st
  else
    let full_alphas := prep_alphas filler src tile_coord st.full_alphas
    let grid := (nine_grid tile_coord).map
      fun ftc => (full_alphas.find? ftc).getD .empty
    let dist_data := st.dist_data.getD (tmConst (2 * N * N))
    if grid.all Tile.isFull || !(find_gaps gg max_gap dist_data grid).1 then
      let st1 := { st with
        full_alphas := full_alphas
        distances := st.distances.insert tile_coord .gapless
        dist_data := some dist_data }
      if (grid.headD .empty).isFull && !tiles_bbox.crossing tile_coord
          && seeds.isTuple then
        let st2 := { st1 with
          final := tile_coord :: st1.final
          filled := st1.filled.insert tile_coord .full }
        let out_seeds := if seeds.len > 1 then
            (const_overflows.drop edgeNone).headD []
          else
            (const_overflows.drop seeds.first).headD []
        let tileq2 := enqueue_overflows GapSeeds.isEmptyS st2.tileq
          tile_coord out_seeds tiles_bbox [(), (), (), ()]
        .inl { st2 with tileq := tileq2 }
      else
        .inr { st1 with filled := st1.filled.insert tile_coord (.buf tmZeros) }
    else
      .inr { st with
        full_alphas := full_alphas
        distances := st.distances.insert tile_coord
          (.buf (find_gaps gg max_gap dist_data grid).2)
        dist_data := none
        filled := st.filled.insert tile_coord (.buf tmZeros) }

/-- The `isinstance(seeds, tuple) and len(seeds) > 1` block: promote the
initial pixel seed to a `(x, y, distance)` seed, and when that distance is
below `2*N*N`, set `options.retract_seeps = False` on the caller's options
object and rebuild the `GapClosingFiller`. -/
def gap_promote (tile_coord : Coord) (seeds : GapSeeds) (max_gap : Int)
    (st : GapState) : GapState × GapSeeds :=
  if seeds.isTuple && decide (seeds.len > 1) then
    let dists := (st.distances.find? tile_coord).getD .gapless
    let ip := seeds.unpack2
    let init_distance := dists.read ip.2 ip.1
    let seeds1 : GapSeeds := .seedList [(ip.1, ip.2, init_distance)]
    if init_distance < 2 * N * N then
      ({ st with
          options := { st.options with retract_seeps := false }
          gc_filler_args := (max_gap, false) }, seeds1)
    else
      (st, seeds1)
  else
    (st, seeds)

/-- The fill phase of one gap-closing iteration: run
`gc_filler.fill(full_alphas[tc], distances[tc], filled[tc], seeds,
*px_bounds)`, enqueue its overflows, finalize completely filled tiles,
accumulate `total_px` and queue seep retraction. -/
def gap_fill_phase (factory : Int → Bool → GCFillerOps)
    (tiles_bbox : TileBoundingBox) (tile_coord : Coord) (seeds : GapSeeds)
    (px_bounds : Nat × Nat × Nat × Nat) (st : GapState) : GapState :=
  let ops := factory st.gc_filler_args.1 st.gc_filler_args.2
  let res := ops.fill ((st.full_alphas.find? tile_coord).getD .empty)
    ((st.distances.find? tile_coord).getD .gapless)
    ((st.filled.find? tile_coord).getD (.buf tmZeros)) seeds px_bounds
  let filled1 := st.filled.insert tile_coord (.buf res.1)
  let tileq1 := enqueue_overflows GapSeeds.isEmptyS st.tileq tile_coord
    (res.2.1.map .seedList) tiles_bbox [(), (), (), ()]
  let fill_edges := res.2.2.1
  let px_f := res.2.2.2
  let fin := if px_f = N * N then
      (tile_coord :: st.final, filled1.insert tile_coord .full)
    else
      (st.final, filled1)
  { st with
    tileq := tileq1
    filled := fin.2
    final := fin.1
    total_px := st.total_px + (px_f : Int)
    unseep_q := if fill_edges.isEmpty then st.unseep_q
      else st.unseep_q ++ [(tile_coord, .edges fill_edges, true)] }

/-- One iteration of the `while len(tileq) > 0` loop of `gap_closing_fill`. -/
def gap_step {σ : Type} (gg : GapGeometry) (factory : Int → Bool → GCFillerOps)
    (src : SrcSurface σ) (tiles_bbox : TileBoundingBox) (filler : Filler σ)
    (max_gap : Int) (st : GapState) : GapState :=
  match st.tileq with
  | [] => st
  | (tile_coord, seeds0, _) :: rest =>
    let st0 := { st with tileq := rest }
    if st0.final.contains tile_coord then st0
    else
      let px_bounds := tiles_bbox.tile_bounds tile_coord
      match gap_prepare gg src filler max_gap tiles_bbox tile_coord seeds0 st0 with
      | .inl st1 => st1
      | .inr st1 =>
        let pro := gap_promote tile_coord seeds0 max_gap st1
        gap_fill_phase factory tiles_bbox tile_coord pro.2 px_bounds pro.1

/-- Run the gap-closing main loop to completion, with fuel standing in for
the absent termination argument. -/
def gap_run {σ : Type} (gg : GapGeometry) (factory : Int → Bool → GCFillerOps)
    (src : SrcSurface σ) (tiles_bbox : TileBoundingBox) (filler : Filler σ)
    (max_gap : Int) : Nat → GapState → Option GapState
  | 0, st => if st.tileq.isEmpty then some st else none
  | fuel + 1, st =>
    if st.tileq.isEmpty then some st
    else gap_run gg factory src tiles_bbox filler max_gap fuel
      (gap_step gg factory src tiles_bbox filler max_gap st)

/-- State of the seep-retraction loop. -/
structure UnseepState : Type where
  unseep_q : List (Coord × USeeds × Bool)
  filled : AMap Tile
  backup : AMap Tile
  total_px : Int

/-- The `if tile_coord not in backup:` block of the retraction loop: on the
first visit, snapshot the tile; a `_FULL_TILE` entry is backed up as the
sentinel itself and replaced in `filled` by a freshly allocated buffer
filled with `1 <<< 15` (the value of `OPAQUE`) before `unseep` writes, and
any other entry is backed up as a value copy (`np.copy`). -/
def ensure_backup (filled backup : AMap Tile) (tc : Coord) :
    AMap Tile × AMap Tile :=
  if backup.holds tc then (filled, backup)
  else
    match filled.find? tc with
    | some .full =>
      (filled.insert tc (.buf (tmConst (1 <<< 15))), backup.insert tc .full)
    | some t => (filled, backup.insert tc t)
    | none => (filled, backup)

/-- One iteration of the `while len(unseep_q) > 0` loop. -/
def unseep_step (factory : Int → Bool → GCFillerOps)
    (tiles_bbox : TileBoundingBox) (gcArgs : Int × Bool)
    (distances : AMap Tile) (st : UnseepState) : UnseepState :=
  match st.unseep_q with
  | [] => st
  | (tile_coord, seeds, is_initial) :: rest =>
    if !distances.holds tile_coord || !st.filled.holds tile_coord then
      { st with unseep_q := rest }
    else
      let fb := ensure_backup st.filled st.backup tile_coord
      let ops := factory gcArgs.1 gcArgs.2
      let res := ops.unseep ((distances.find? tile_coord).getD .gapless)
        ((fb.1.find? tile_coord).getD .empty) seeds is_initial
      { unseep_q := enqueue_overflows USeeds.isEmptyS rest tile_coord
          (res.2.1.map .coords) tiles_bbox [false, false, false, false]
        filled := fb.1.insert tile_coord (.buf res.1)
        backup := fb.2
        total_px := st.total_px - (res.2.2 : Int) }

/-- Run the seep-retraction loop to completion, with fuel. -/
def unseep_run (factory : Int → Bool → GCFillerOps)
    (tiles_bbox : TileBoundingBox) (gcArgs : Int × Bool)
    (distances : AMap Tile) : Nat → UnseepState → Option UnseepState
  | 0, st => if st.unseep_q.isEmpty then some st else none
  | fuel + 1, st =>
    if st.unseep_q.isEmpty then some st
    else unseep_run factory tiles_bbox gcArgs distances fuel
      (unseep_step factory tiles_bbox gcArgs distances st)

/-- The rollback at the end of `gap_closing_fill`: when `total_px <= 0`,
restore every backed-up tile into `filled`. -/
def gap_rollback (total_px : Int) (backup : AMap Tile) (filled : AMap Tile) :
    AMap Tile :=
  if total_px ≤ 0 then
    backup.foldl (fun f p => f.insert p.1 p.2) filled
  else
    filled

/-- `gap_closing_fill(src, init, tiles_bbox, filler, gap_closing_options)`:
the full driver.  Besides the returned `filled` dict, the embedding also
returns the final value of the caller-provided options object, which the
Python code may mutate in place. -/
def gap_closing_fill {σ : Type} (gg : GapGeometry)
    (factory : Int → Bool → GCFillerOps) (src : SrcSurface σ)
    (init : Coord × Nat × Nat) (tiles_bbox : TileBoundingBox)
    (filler : Filler σ) (gco : GapClosingOptions) (fuel : Nat) :
    Option (PyRet × GapClosingOptions) :=
  let max_gap := clampI gco.max_gap_size 1 (N : Int)
  let st0 : GapState :=
    { full_alphas := [], distances := [], unseep_q := [], filled := [],
      final := [], tileq := [(init.1, .initPx init.2.1 init.2.2, ())],
      total_px := 0, options := gco,
      gc_filler_args := (max_gap, gco.retract_seeps), dist_data := none }
  (gap_run gg factory src tiles_bbox filler max_gap fuel st0).bind fun st1 =>
    (unseep_run factory tiles_bbox st1.gc_filler_args st1.distances fuel
      { unseep_q := st1.unseep_q, filled := st1.filled, backup := [],
        total_px := st1.total_px }).map fun st2 =>
      (.map (gap_rollback st2.total_px st2.backup st2.filled), st1.options)

/-- Fill blend modes: `myplib.CombineNormal`, `myplib.CombineDestinationOut`
and the remaining `Combine*` constants. -/
inductive Mode : Type where
  | normal
  | destOut
  | other (k : Nat)
  deriving DecidableEq

/-- One destination write performed by the compositor: the full-tile RGBA
copy fast path, the destination-out tile drop, or a general
`tile_combine` over the given pixel bounds. -/
inductive CompOp : Type where
  | copyFull (tc : Coord)
  | popTile (tc : Coord)
  | combine (tc : Coord) (bounds : Nat × Nat × Nat × Nat)
  deriving DecidableEq

/-- The destination surface, reduced to the observables the compositor
touches: the key set of `dst.get_tiles()`. -/
structure DstSurface : Type where
  dst_tiles : List Coord

/-- `update_bbox(bbox, tx, ty)`. -/
def update_bbox (bbox : Option (Int × Int × Int × Int)) (tx ty : Int) :
    Int × Int × Int × Int :=
  match bbox with
  | some (min_tx, min_ty, max_tx, max_ty) =>
    let px := if tx < min_tx then (tx, max_tx)
      else if tx > max_tx then (min_tx, tx) else (min_tx, max_tx)
    let py := if ty < min_ty then (ty, max_ty)
      else if ty > max_ty then (min_ty, ty) else (min_ty, max_ty)
    (px.1, py.1, px.2, py.2)
  | none => (tx, ty, tx, ty)

/-- Accumulator of the compositor loop: write acquisitions in order, the
destination writes performed, the evolving destination tile key set and the
changed bounding box. -/
structure CompAcc : Type where
  writes : List Coord
  ops : List CompOp
  dst_tiles : List Coord
  bbox : Option (Int × Int × Int × Int)

/-- The body of the compositor's `for tile_coord, src_tile in ...` loop for
one entry of the filled map. -/
def composite_entry (mode : Mode) (trim_result : Bool)
    (tiles_bbox : TileBoundingBox) (acc : CompAcc) (e : Coord × Tile) :
    CompAcc :=
  if trim_result && tiles_bbox.outside e.1 then acc
  else if decide (mode ≠ .normal) && !acc.dst_tiles.contains e.1 then acc
  else
    let acc1 := { acc with
      writes := acc.writes ++ [e.1]
      bbox := some (update_bbox acc.bbox e.1.1 e.1.2) }
    let cut_off := trim_result && tiles_bbox.crossing e.1
    let combinePath := fun (a : CompAcc) =>
      let tile_bounds := if trim_result then tiles_bbox.tile_bounds e.1
        else (0, 0, N - 1, N - 1)
      { a with ops := a.ops ++ [.combine e.1 tile_bounds] }
    if e.2.isFull && !cut_off then
      if mode = .normal then
        { acc1 with ops := acc1.ops ++ [.copyFull e.1] }
      else if mode = .destOut then
        { acc1 with
          ops := acc1.ops ++ [.popTile e.1]
          dst_tiles := acc1.dst_tiles.filter fun c => decide (c ≠ e.1) }
      else combinePath acc1
    else combinePath acc1

/-- The observable effects of `composite`. -/
structure CompositeResult : Type where
  writes : List Coord
  ops : List CompOp
  dst_tiles : List Coord
  dst_changed_bbox : Option (Int × Int × Int × Int)
  notification : Option (Int × Int × Int × Int)
  deriving DecidableEq

/-- `composite(mode, fill_col, trim_result, filled, tiles_bbox, dst)`:
fold the per-entry step over the filled map and issue the observer
notification when the changed bounding box is non-empty. -/
def composite (mode : Mode) (_fill_col : Nat × Nat × Nat) (trim_result : Bool)
    (filled : AMap Tile) (tiles_bbox : TileBoundingBox) (dst : DstSurface) :
    CompositeResult :=
  let acc := filled.foldl (composite_entry mode trim_result tiles_bbox)
    { writes := [], ops := [], dst_tiles := dst.dst_tiles, bbox := none }
  let ntf : Option (Int × Int × Int × Int) :=
    match acc.bbox with
    | some (min_tx, min_ty, max_tx, max_ty) =>
      some (min_tx * (N : Int), min_ty * (N : Int),
        (1 + max_tx - min_tx) * (N : Int), (1 + max_ty - min_ty) * (N : Int))
    | none => none
  { writes := acc.writes
    ops := acc.ops
    dst_tiles := acc.dst_tiles
    dst_changed_bbox := acc.bbox
    notification := ntf }

/-- `starting_coordinates(x, y)`: starting tile and in-tile pixel. -/
def starting_coordinates (x y : Int) : Int × Int × Nat × Nat :=
  (Int.fdiv x (N : Int), Int.fdiv y (N : Int),
   (Int.fmod x (N : Int)).toNat, (Int.fmod y (N : Int)).toNat)

/-- `get_target_color(src, tx, ty, px, py)`: sample the starting pixel; an
alpha of 0 forces the RGB channels to 0. -/
def get_target_color {σ : Type} (src : SrcSurface σ) (tx ty : Int)
    (px py : Nat) : Nat × Nat × Nat × Nat :=
  let c := src.pixel (src.tiles (tx, ty)) px py
  if c.2.2.2 = 0 then (0, 0, 0, c.2.2.2) else c

/-- The external collaborators `flood_fill` composes with: the `Filler`
constructor, the morphology and blur passes, and the gap-geometry and
`GapClosingFiller` primitives. -/
structure ExternalOps (σ : Type) : Type where
  mkFiller : Nat → Nat → Nat → Nat → Rat → Filler σ
  morph : Int → AMap Tile → AMap Tile
  blur : Int → AMap Tile → AMap Tile
  geometry : GapGeometry
  gcFactory : Int → Bool → GCFillerOps

/-- Unwrap the dict returned by a fill driver. -/
def PyRet.filledMap : PyRet → AMap Tile
  | .map m => m
  | .pair m _ => m

/-- `flood_fill(src, x, y, color, tolerance, offset, feather,
gap_closing_options, mode, framed, bbox, dst)`: the top-level entry point,
returning its observable effects on the destination surface (`none` when
the fuel for the inner loops runs out). -/
def flood_fill {σ : Type} (ext : ExternalOps σ) (src : SrcSurface σ)
    (x y : Int) (color : Nat × Nat × Nat) (tolerance : Rat)
    (offset feather : Int) (gap_closing_options : Option GapClosingOptions)
    (mode : Mode) (framed : Bool) (bbox : Int × Int × Int × Int)
    (dst : DstSurface) (fuel : Nat) : Option CompositeResult :=
  let w := bbox.2.2.1
  let h := bbox.2.2.2
  if w ≤ 0 ∨ h ≤ 0 then
    some { writes := []
           ops := []
           dst_tiles := dst.dst_tiles
           dst_changed_bbox := none
           notification := none }
  else
    let tiles_bbox := TileBoundingBox.ofRect bbox.1 bbox.2.1 w h
    let tolerance1 := clampQ tolerance 0 1
    let offset1 := clampI offset (-(N : Int)) (N : Int)
    let feather1 := clampI feather 0 (N : Int)
    let sp := starting_coordinates x y
    let tcol := get_target_color src sp.1 sp.2.1 sp.2.2.1 sp.2.2.2
    let filler := ext.mkFiller tcol.1 tcol.2.1 tcol.2.2.1 tcol.2.2.2 tolerance1
    let init : Coord × Nat × Nat := ((sp.1, sp.2.1), sp.2.2.1, sp.2.2.2)
    let filledOpt : Option (AMap Tile) :=
      match gap_closing_options with
      | some gco =>
        (gap_closing_fill ext.geometry ext.gcFactory src init tiles_bbox
          filler gco fuel).map fun r => r.1.filledMap
      | none =>
        (scanline_fill src init tiles_bbox filler fuel).map PyRet.filledMap
    filledOpt.map fun filled0 =>
      let filled1 := if offset1 ≠ 0 then ext.morph offset1 filled0 else filled0
      let filled2 := if feather1 ≠ 0 then ext.blur feather1 filled1 else filled1
      let trim_result := framed
        && (decide (offset1 > 0) || decide (feather1 ≠ 0))
      composite mode color trim_result filled2 tiles_bbox dst

/-! Helper lemmas about the association-list dict operations and the
conditional-append fold of the queue manager. -/

theorem foldl_append_filter {α : Type} (P : α → Bool) :
    ∀ (l q : List α),
      l.foldl (fun acc x => if P x then acc ++ [x] else acc) q = q ++ l.filter P
  | [], q => by simp
  | x :: xs, q => by
    cases h : P x <;>
      simp [List.filter_cons, h, foldl_append_filter P xs, List.append_assoc]

theorem AMap.find?_filter_ne {α : Type} (m : AMap α) (k k' : Coord)
    (h : k' ≠ k) :
    AMap.find? (m.filter fun p => !decide (p.1 = k)) k' = m.find? k' := by
  have hkk : ¬ k = k' := fun hc => h hc.symm
  induction m with
  | nil => rfl
  | cons a rest ih =>
    by_cases hak : a.1 = k
    · have hk' : ¬ a.1 = k' := by
        intro hc
        exact h (hc ▸ hak ▸ rfl)
      simp [List.filter_cons, hak, AMap.find?, hk', ih, hkk]
    · by_cases hak' : a.1 = k'
      · simp [List.filter_cons, hak, AMap.find?, hak', h]
      · simp [List.filter_cons, hak, AMap.find?, hak', ih]

theorem AMap.find?_insert_self {α : Type} (m : AMap α) (k : Coord) (v : α) :
    (m.insert k v).find? k = some v := by
  simp [AMap.insert, AMap.find?]

theorem AMap.find?_insert_ne {α : Type} (m : AMap α) (k k' : Coord) (v : α)
    (h : k' ≠ k) : (m.insert k v).find? k' = m.find? k' := by
  have hk : ¬ k = k' := fun hc => h hc.symm
  have hf := AMap.find?_filter_ne m k k' h
  simp only [AMap.insert, AMap.find?, hk, if_false, decide_not] at *
  exact hf

theorem AMap.find?_insert {α : Type} (m : AMap α) (k k' : Coord) (v : α) :
    (m.insert k v).find? k' = if k = k' then some v else m.find? k' := by
  by_cases h : k = k'
  · subst h
    simp [AMap.find?_insert_self]
  · simp [h, AMap.find?_insert_ne m k k' v (fun hc => h hc.symm)]

theorem AMap.find?_foldl_insert_not_mem {α : Type} (l : AMap α)
    (tc : Coord) (h : tc ∉ l.map Prod.fst) :
    ∀ f : AMap α,
      (l.foldl (fun m p => m.insert p.1 p.2) f).find? tc = f.find? tc := by
  induction l with
  | nil => intro f; rfl
  | cons a rest ih =>
    intro f
    have hne : tc ≠ a.1 := by
      intro hc
      exact h (by simp [hc])
    have hrest : tc ∉ rest.map Prod.fst := by
      intro hc
      exact h (by simp [hc])
    simpa [ih hrest] using AMap.find?_insert_ne f a.1 tc a.2 hne

theorem AMap.find?_foldl_insert_mem {α : Type} :
    ∀ (l : AMap α) (f : AMap α) (tc : Coord) (v : α),
      (l.map Prod.fst).Nodup → (tc, v) ∈ l →
      (l.foldl (fun m p => m.insert p.1 p.2) f).find? tc = some v := by
  intro l
  induction l with
  | nil => intro f tc v _ hm; cases hm
  | cons a rest ih =>
    intro f tc v hnd hm
    have hnd1 : (rest.map Prod.fst).Nodup := (List.nodup_cons.mp hnd).2
    rcases List.mem_cons.mp hm with heq | hmem
    · subst heq
      have hnotin : tc ∉ rest.map Prod.fst := by
        simpa using (List.nodup_cons.mp hnd).1
      simpa [AMap.find?_foldl_insert_not_mem rest tc hnotin]
        using AMap.find?_insert_self f tc v
    · exact ih (f.insert a.1 a.2) tc v hnd1 hmem

/-! Concrete instantiations used to evaluate the theorems on explicit
inputs. -/

/-- A filler over a trivial source tile type whose uniformity check always
returns the given answer and whose kernels write nothing. -/
def constFiller (a : Option Nat) : Filler Unit where
  tile_uniformity := fun _ _ => a
  fill := fun _ _ _ _ _ => (tmZeros, [[], [], [], []])
  flood := fun _ => tmZeros

/-- A trivial source surface. -/
def unitSrc : SrcSurface Unit where
  tiles := fun _ => ()
  pixel := fun _ _ _ => (0, 0, 0, 0)
  isEmptyRGBA := fun _ => false

/-- The tile bounding box of the pixel rectangle `(0, 0, 192, 192)`: tiles
`(0,0)` to `(2,2)`, so `(1,1)` is interior. -/
def bb3 : TileBoundingBox := TileBoundingBox.ofRect 0 0 192 192

/-- Gap geometry that never passes the corner test and marks every distance
as 0. -/
def ggZero : GapGeometry where
  no_corner_gaps := fun _ _ _ _ _ => false
  mark_gaps := fun _ _ => tmConst 0

/-- A gap-closing filler factory whose kernels write nothing. -/
def zeroFactory : Int → Bool → GCFillerOps := fun _ _ =>
  { fill := fun _ _ _ _ _ => (tmZeros, [[], [], [], []], [], 0)
    unseep := fun _ _ _ _ => (tmZeros, [[], [], [], []], 0) }

/-- External collaborators over the trivial source tile type. -/
def extU : ExternalOps Unit where
  mkFiller := fun _ _ _ _ _ => constFiller none
  morph := fun _ m => m
  blur := fun _ m => m
  geometry := ggZero
  gcFactory := zeroFactory

/-- The empty skipper state. -/
def sk0 : SkipState where
  uniform_tiles := []
  final := []

/-! Claim C6. -/

/-- Claim C6: in `enqueue_overflows`, a record is considered for each of the
four orthogonal neighbours in the fixed order north, east, south, west, and
is appended if and only if the corresponding seed container is non-empty and
the neighbour coordinate is not outside the tile bounding box; the queue is
FIFO, so the surviving records are appended at the back in that order. -/
theorem enqueue_overflows_characterization {σ π : Type} (se : σ → Bool)
    (queue : List (Coord × σ × π)) (tc : Coord) (s0 s1 s2 s3 : σ)
    (bb : TileBoundingBox) (p0 p1 p2 p3 : π) :
    enqueue_overflows se queue tc [s0, s1, s2, s3] bb [p0, p1, p2, p3] =
      queue ++
        List.filter (fun e => !se e.2.1 && !bb.outside e.1)
          [((tc.1, tc.2 - 1), s0, p0), ((tc.1 + 1, tc.2), s1, p1),
           ((tc.1, tc.2 + 1), s2, p2), ((tc.1 - 1, tc.2), s3, p3)] := by
  have hz : (orthogonal tc).zip ([s0, s1, s2, s3].zip [p0, p1, p2, p3]) =
      [((tc.1, tc.2 - 1), s0, p0), ((tc.1 + 1, tc.2), s1, p1),
       ((tc.1, tc.2 + 1), s2, p2), ((tc.1 - 1, tc.2), s3, p3)] := rfl
  rw [enqueue_overflows, hz]
  exact foldl_append_filter (fun e => !se e.2.1 && !bb.outside e.1) _ queue

/-! Claim C7. -/

/-- Claim C7: in `gap_closing_fill`, if after the seep-retraction queue
drains the accumulated pixel count is at most zero, the rollback restores
every backed-up tile (`filled[tc] = backup[tc]` for every tc with a saved
backup); if the count is positive, no backup is restored. -/
theorem gap_rollback_spec (total_px : Int) (backup filled : AMap Tile)
    (hnd : (backup.map Prod.fst).Nodup) :
    (total_px ≤ 0 → ∀ tc v, (tc, v) ∈ backup →
      (gap_rollback total_px backup filled).find? tc = some v) ∧
    (0 < total_px → gap_rollback total_px backup filled = filled) := by
  constructor
  · intro hle tc v hm
    rw [gap_rollback, if_pos hle]
    exact AMap.find?_foldl_insert_mem backup filled tc v hnd hm
  · intro hpos
    rw [gap_rollback, if_neg (by omega)]

/-- Evaluation of `gap_rollback_spec` at a concrete input. -/
theorem gap_rollback_spec_witness :
    ((0 : Int) ≤ 0) ∧
    (gap_rollback 0 [((0, 0), Tile.full)] []).find? (0, 0) = some Tile.full :=
  ⟨le_refl 0,
   (gap_rollback_spec 0 [((0, 0), Tile.full)] [] (by simp)).1 (le_refl 0)
     (0, 0) Tile.full (by simp)⟩

/-! Claim C1. -/

/-- Claim C1 (amended): when `_TileFillSkipper.check` classifies a tile as
uniform with fill alpha 0 (and the tile is neither already filled nor on
the bounding box edge), it adds the coordinate to `final` and returns four
empty seed lists — so enqueuing the overflow propagates nothing — but it
leaves the `filled` map unchanged: no `EMPTY_TILE` entry is written. -/
theorem skipper_check_uniform_zero {σ : Type} (bb : TileBoundingBox)
    (filler : Filler σ) (src : SrcSurface σ) (tc : Coord) (t : σ)
    (filled : AMap Tile) (from_dir : Nat) (st : SkipState)
    (hnf : filled.holds tc = false) (hcross : bb.crossing tc = false)
    (hu : filler.tile_uniformity (src.isEmptyRGBA t) t = some 0) :
    skipper_check bb filler src tc t filled from_dir st =
      (some [[], [], [], []], filled, { st with final := tc :: st.final }) ∧
    ∀ (q : List (Coord × ScanSeeds × Nat)),
      enqueue_overflows ScanSeeds.isEmptyS q tc
        (List.map ScanSeeds.ranges [[], [], [], []]) bb inv_edges = q := by
  constructor
  · simp [skipper_check, hnf, hcross, hu]
  · intro q
    rfl

/-- Claim C1 counterexample: at a concrete uniform alpha-0 tile, the check
leaves the map without any entry at the coordinate, so the claimed
`filled[tc] = EMPTY_TILE` is false. -/
theorem skipper_check_uniform_zero_counterexample :
    ¬ ((skipper_check bb3 (constFiller (some 0)) unitSrc (1, 1) () []
        edgeNone sk0).2.1.find? (1, 1) = some Tile.empty) := by
  intro h
  exact Option.noConfusion h

/-- Evaluation of `skipper_check_uniform_zero` at a concrete input. -/
theorem skipper_check_uniform_zero_witness :
    AMap.holds ([] : AMap Tile) (1, 1) = false ∧ bb3.crossing (1, 1) = false ∧
    (constFiller (some 0)).tile_uniformity (unitSrc.isEmptyRGBA ()) () =
      some 0 ∧
    skipper_check bb3 (constFiller (some 0)) unitSrc (1, 1) () [] edgeNone
        sk0 =
      (some [[], [], [], []], [], { sk0 with final := [(1, 1)] }) ∧
    enqueue_overflows ScanSeeds.isEmptyS [] (1, 1)
      (List.map ScanSeeds.ranges [[], [], [], []]) bb3 inv_edges = [] :=
  ⟨rfl, rfl, rfl,
   (skipper_check_uniform_zero bb3 (constFiller (some 0)) unitSrc (1, 1) ()
      [] edgeNone sk0 rfl rfl rfl).1,
   (skipper_check_uniform_zero bb3 (constFiller (some 0)) unitSrc (1, 1) ()
      [] edgeNone sk0 rfl rfl rfl).2 []⟩

/-! Claim C2. -/

/-- Whether a returned Python value is a 2-tuple. -/
def PyRet.isPair : PyRet → Bool
  | .map _ => false
  | .pair _ _ => true

/-- Claim C2 (amended): `scanline_fill` returns the `filled` dict alone —
never a pair — and a tile the skipper classifies as uniformly `OPAQUE` is
recorded in that dict as `filled[tc] = FULL_TILE` (with the coordinate
added to `final` and the `FULL_OVERFLOWS` pattern for the origin edge
returned); there is no separately returned full-opaque set. -/
theorem scanline_fill_map_shape (σ : Type) :
    (∀ (src : SrcSurface σ) (init : Coord × Nat × Nat)
       (bb : TileBoundingBox) (filler : Filler σ) (fuel : Nat) (r : PyRet),
       scanline_fill src init bb filler fuel = some r → r.isPair = false) ∧
    (∀ (bb : TileBoundingBox) (filler : Filler σ) (src : SrcSurface σ)
       (tc : Coord) (t : σ) (filled : AMap Tile) (from_dir : Nat)
       (st : SkipState),
       filled.holds tc = false → bb.crossing tc = false →
       filler.tile_uniformity (src.isEmptyRGBA t) t = some OPAQUE →
       skipper_check bb filler src tc t filled from_dir st =
         (some ((FULL_OVERFLOWS.drop from_dir).headD []),
          filled.insert tc .full, { st with final := tc :: st.final })) := by
  constructor
  · intro src init bb filler fuel r h
    rw [scanline_fill] at h
    rcases Option.map_eq_some'.mp h with ⟨st, _, rfl⟩
    rfl
  · intro bb filler src tc t filled from_dir st hnf hcross hu
    simp [skipper_check, hnf, hcross, hu, show OPAQUE ≠ 0 by decide]

/-- Claim C2 counterexample: at a concrete input (a uniformly opaque
source tile at the seed), `scanline_fill` does not return a pair
`(filled, full_opaque_set)`: its result is the bare dict. -/
theorem scanline_fill_counterexample :
    ¬ ∃ m s, scanline_fill unitSrc ((1, 1), 0, 0) bb3
        (constFiller (some OPAQUE)) 8 = some (PyRet.pair m s) := by
  rintro ⟨m, s, h⟩
  have h2 : some false = some true := by
    calc some false
        = (scanline_fill unitSrc ((1, 1), 0, 0) bb3
            (constFiller (some OPAQUE)) 8).map PyRet.isPair := by rfl
      _ = (some (PyRet.pair m s)).map PyRet.isPair := by rw [h]
      _ = some true := rfl
  exact Bool.noConfusion (Option.some.inj h2)

/-- Evaluation of `scanline_fill_map_shape` at a concrete input. -/
theorem scanline_fill_map_shape_witness :
    (∃ r, scanline_fill unitSrc ((1, 1), 0, 0) bb3
       (constFiller (some OPAQUE)) 8 = some r ∧ r.isPair = false) ∧
    skipper_check bb3 (constFiller (some OPAQUE)) unitSrc (1, 1) () []
        edgeNone sk0 =
      (some ((FULL_OVERFLOWS.drop edgeNone).headD []),
       AMap.insert [] (1, 1) .full, { sk0 with final := [(1, 1)] }) := by
  constructor
  · obtain ⟨r, hr⟩ : ∃ r, scanline_fill unitSrc ((1, 1), 0, 0) bb3
        (constFiller (some OPAQUE)) 8 = some r := ⟨_, rfl⟩
    exact ⟨r, hr,
      (scanline_fill_map_shape Unit).1 _ _ _ _ _ r hr⟩
  · exact (scanline_fill_map_shape Unit).2 bb3
      (constFiller (some OPAQUE)) unitSrc (1, 1) () [] edgeNone sk0
      rfl rfl rfl

/-! Claim C4. -/

/-- Claim C4 (amended): the compositor has no `EMPTY_TILE` skip.  An entry
`(tc, EMPTY_TILE)` of the filled map is skipped only by the two general
guards — `trim_result` with tc outside the bounding box, or a non-normal
mode with no destination tile at tc; otherwise the compositor acquires
write access at tc, records tc in the changed bounding box, and performs a
general combine over the tile bounds. -/
theorem composite_entry_empty (mode : Mode) (trim : Bool)
    (bb : TileBoundingBox) (acc : CompAcc) (tc : Coord) :
    ((trim && bb.outside tc) = true →
       composite_entry mode trim bb acc (tc, .empty) = acc) ∧
    ((decide (mode ≠ .normal) && !acc.dst_tiles.contains tc) = true →
       composite_entry mode trim bb acc (tc, .empty) = acc) ∧
    ((trim && bb.outside tc) = false →
     (decide (mode ≠ .normal) && !acc.dst_tiles.contains tc) = false →
       composite_entry mode trim bb acc (tc, .empty) =
         { acc with
            writes := acc.writes ++ [tc]
            bbox := some (update_bbox acc.bbox tc.1 tc.2)
            ops := acc.ops ++ [.combine tc
              (if trim then bb.tile_bounds tc else (0, 0, N - 1, N - 1))] }) := by
  refine ⟨fun h1 => ?_, fun h2 => ?_, fun h1 h2 => ?_⟩
  · simp only [composite_entry]
    rw [if_pos h1]
  · simp only [composite_entry]
    by_cases h1 : (trim && bb.outside tc) = true
    · rw [if_pos h1]
    · rw [if_neg h1, if_pos h2]
  · simp only [composite_entry]
    rw [if_neg (by rw [h1]; exact Bool.false_ne_true),
      if_neg (by rw [h2]; exact Bool.false_ne_true)]
    rfl

/-- Claim C4 counterexample: a concrete `EMPTY_TILE` entry under normal
mode with no trimming is not skipped: the compositor acquires write access
at its coordinate and includes it in the changed bounding box. -/
theorem composite_empty_counterexample :
    ¬ ((composite .normal (0, 0, 0) false [((0, 0), Tile.empty)] bb3
          { dst_tiles := [] }).writes = [] ∧
       (composite .normal (0, 0, 0) false [((0, 0), Tile.empty)] bb3
          { dst_tiles := [] }).dst_changed_bbox = none) := by
  decide

/-- Evaluation of `composite_entry_empty` at a concrete input. -/
theorem composite_entry_empty_witness :
    ((false && bb3.outside (0, 0)) = false) ∧
    ((decide ((Mode.normal) ≠ .normal) &&
      !(CompAcc.mk [] [] [] none).dst_tiles.contains (0, 0)) = false) ∧
    composite_entry .normal false bb3 (CompAcc.mk [] [] [] none)
        ((0, 0), Tile.empty) =
      CompAcc.mk [(0, 0)] [.combine (0, 0) (0, 0, N - 1, N - 1)] []
        (some (0, 0, 0, 0)) := by
  refine ⟨rfl, rfl, ?_⟩
  exact (composite_entry_empty .normal false bb3 (CompAcc.mk [] [] [] none)
    (0, 0)).2.2 rfl rfl

/-! Claim C5. -/

/-- Claim C5: a degenerate bounding box (width or height at most 0) makes
`flood_fill` return immediately as a silent no-op: no destination tile is
written or acquired, the destination tile set is unchanged, and no observer
notification is issued. -/
theorem flood_fill_degenerate {σ : Type} (ext : ExternalOps σ)
    (src : SrcSurface σ) (x y : Int) (color : Nat × Nat × Nat)
    (tolerance : Rat) (offset feather : Int)
    (gco : Option GapClosingOptions) (mode : Mode) (framed : Bool)
    (bbox : Int × Int × Int × Int) (dst : DstSurface) (fuel : Nat)
    (hdeg : bbox.2.2.1 ≤ 0 ∨ bbox.2.2.2 ≤ 0) :
    flood_fill ext src x y color tolerance offset feather gco mode framed
        bbox dst fuel =
      some (CompositeResult.mk [] [] dst.dst_tiles none none) := by
  unfold flood_fill
  dsimp only
  rw [if_pos hdeg]

/-- Evaluation of `flood_fill_degenerate` at a concrete input. -/
theorem flood_fill_degenerate_witness :
    (((0, 0, 0, 0) : Int × Int × Int × Int).2.2.1 ≤ 0 ∨
      ((0, 0, 0, 0) : Int × Int × Int × Int).2.2.2 ≤ 0) ∧
    flood_fill extU unitSrc 0 0 (0, 0, 0) 0 0 0 none .normal false
        (0, 0, 0, 0) (DstSurface.mk [(5, 5)]) 1 =
      some (CompositeResult.mk [] [] [(5, 5)] none none) :=
  ⟨Or.inl (le_refl 0),
   flood_fill_degenerate extU unitSrc 0 0 (0, 0, 0) 0 0 0 none .normal false
     (0, 0, 0, 0) (DstSurface.mk [(5, 5)]) 1 (Or.inl (le_refl 0))⟩

/-! Claim C9. -/

/-- Claim C9: once a tile coordinate has been added to the final set, any
later dequeue of a record for it is a no-op in both drivers: the record is
discarded while `filled`, `final` and the rest of the state are unchanged
and no overflow is enqueued; since the equations hold for every source
surface and filler, the source tile is not read. -/
theorem final_dequeue_noop (σ : Type) :
    (∀ (src : SrcSurface σ) (bb : TileBoundingBox) (filler : Filler σ)
       (tc : Coord) (s : ScanSeeds) (d : Nat)
       (rest : List (Coord × ScanSeeds × Nat)) (filled : AMap Tile)
       (sk : SkipState), sk.final.contains tc = true →
       scanline_step src bb filler ⟨(tc, s, d) :: rest, filled, sk⟩ =
         ⟨rest, filled, sk⟩) ∧
    (∀ (gg : GapGeometry) (factory : Int → Bool → GCFillerOps)
       (src : SrcSurface σ) (bb : TileBoundingBox) (filler : Filler σ)
       (mg : Int) (st : GapState) (tc : Coord) (s : GapSeeds)
       (rest : List (Coord × GapSeeds × Unit)),
       st.tileq = (tc, s, ()) :: rest → st.final.contains tc = true →
       gap_step gg factory src bb filler mg st = { st with tileq := rest }) := by
  constructor
  · intro src bb filler tc s d rest filled sk h
    have h' : tc ∈ sk.final := by simpa using h
    simp [scanline_step, h']
  · intro gg factory src bb filler mg st tc s rest hq h
    have h' : tc ∈ st.final := by simpa using h
    simp [gap_step, hq, h']

/-- A gap-closing state whose head record is for an already-final tile. -/
def gapStFin : GapState where
  full_alphas := []
  distances := []
  unseep_q := []
  filled := []
  final := [(1, 1)]
  tileq := [((1, 1), .initPx 0 0, ())]
  total_px := 0
  options := { max_gap_size := 5, retract_seeps := true }
  gc_filler_args := (5, true)
  dist_data := none

/-- Evaluation of `final_dequeue_noop` at concrete inputs. -/
theorem final_dequeue_noop_witness :
    (SkipState.mk [] [(1, 1)]).final.contains (1, 1) = true ∧
    scanline_step unitSrc bb3 (constFiller none)
        ⟨[((1, 1), .startPx 0 0, edgeNone)], [], SkipState.mk [] [(1, 1)]⟩ =
      ⟨[], [], SkipState.mk [] [(1, 1)]⟩ ∧
    gap_step ggZero zeroFactory unitSrc bb3 (constFiller none) 5 gapStFin =
      { gapStFin with tileq := [] } := by
  refine ⟨rfl, ?_, ?_⟩
  · exact (final_dequeue_noop Unit).1 unitSrc bb3 (constFiller none) (1, 1)
      (.startPx 0 0) edgeNone [] [] (SkipState.mk [] [(1, 1)]) rfl
  · exact (final_dequeue_noop Unit).2 ggZero zeroFactory unitSrc bb3
      (constFiller none) 5 gapStFin (1, 1) (.initPx 0 0) [] rfl rfl

/-! Claim C10. -/

/-- Claim C10 (amended): when the dequeued seed payload is the initial
pixel tuple and its gap-distance value is below `2*N*N`, the gap-closing
fill sets `retract_seeps := false` on the caller-provided options object
and rebuilds the `GapClosingFiller` with the new value; the caller's
options object differs afterwards exactly when `retract_seeps` was
initially true (setting an already-false flag leaves the object's value
unchanged).  For a distance not below `2*N*N`, and for non-initial seed
payloads, the options are left untouched; the fill phase never changes
them. -/
theorem gap_promote_options (tc : Coord) (px py : Nat) (mg : Int)
    (st : GapState) :
    (((st.distances.find? tc).getD .gapless).read py px < 2 * N * N →
       (gap_promote tc (.initPx px py) mg st).1 =
         { st with
            options := { st.options with retract_seeps := false }
            gc_filler_args := (mg, false) } ∧
       (st.options.retract_seeps = true →
         (gap_promote tc (.initPx px py) mg st).1.options ≠ st.options) ∧
       (st.options.retract_seeps = false →
         (gap_promote tc (.initPx px py) mg st).1.options = st.options)) ∧
    (¬ ((st.distances.find? tc).getD .gapless).read py px < 2 * N * N →
       (gap_promote tc (.initPx px py) mg st).1 = st) ∧
    (gap_promote tc (.initPx px py) mg st).2 =
      .seedList [(px, py,
        ((st.distances.find? tc).getD .gapless).read py px)] ∧
    (∀ s : GapSeeds, s.isTuple = false ∨ s.len ≤ 1 →
       gap_promote tc s mg st = (st, s)) ∧
    (∀ (factory : Int → Bool → GCFillerOps) (bb : TileBoundingBox)
       (tc2 : Coord) (s2 : GapSeeds) (pb : Nat × Nat × Nat × Nat)
       (st2 : GapState),
       (gap_fill_phase factory bb tc2 s2 pb st2).options = st2.options) := by
  refine ⟨fun hlt => ⟨?_, ?_, ?_⟩, fun hge => ?_, ?_, ?_, ?_⟩
  · simp [gap_promote, GapSeeds.isTuple, GapSeeds.len, GapSeeds.unpack2, hlt]
  · intro htrue heq
    have := congrArg GapClosingOptions.retract_seeps heq
    simp [gap_promote, GapSeeds.isTuple, GapSeeds.len, GapSeeds.unpack2,
      hlt, htrue] at this
  · intro hfalse
    simp [gap_promote, GapSeeds.isTuple, GapSeeds.len, GapSeeds.unpack2,
      hlt]
    cases hopt : st.options with
    | mk m r =>
      rw [hopt] at hfalse
      simp at hfalse
      simp [hfalse]
  · simp [gap_promote, GapSeeds.isTuple, GapSeeds.len, GapSeeds.unpack2, hge]
  · by_cases hlt : ((st.distances.find? tc).getD .gapless).read py px <
        2 * N * N <;>
      simp [gap_promote, GapSeeds.isTuple, GapSeeds.len, GapSeeds.unpack2, hlt]
  · intro s hs
    cases s with
    | initPx a b =>
      rcases hs with h | h
      · exact absurd h (by simp [GapSeeds.isTuple])
      · exact absurd h (by simp [GapSeeds.len])
    | edgeTup es =>
      rcases hs with h | h
      · exact absurd h (by simp [GapSeeds.isTuple])
      · have h2 : es.length ≤ 1 := h
        have hlen : decide (GapSeeds.len (.edgeTup es) > 1) = false := by
          simp [GapSeeds.len]
          omega
        simp [gap_promote, hlen]
    | seedList l => simp [gap_promote, GapSeeds.isTuple]
  · intro factory bb tc2 s2 pb st2
    rfl

/-- A prepared gap-closing state: the dequeued tile has a computed distance
tile whose pixels are all 0, and seep retraction is already disabled. -/
def gapSt10 : GapState where
  full_alphas := [((1, 1), Tile.buf tmZeros)]
  distances := [((1, 1), Tile.buf (tmConst 0))]
  unseep_q := []
  filled := [((1, 1), Tile.buf tmZeros)]
  final := []
  tileq := [((1, 1), .initPx 0 0, ())]
  total_px := 0
  options := { max_gap_size := 5, retract_seeps := false }
  gc_filler_args := (5, false)
  dist_data := none

/-- Claim C10 counterexample: a concrete input on which the initial seed's
gap-distance value is below `2*N*N` (so the claim asserts the caller's
options object differs after the call), yet the options object is
unchanged, because `retract_seeps` was already false. -/
theorem gap_promote_options_counterexample :
    (Tile.read ((AMap.find? gapSt10.distances (1, 1)).getD .gapless) 0 0 <
      2 * N * N) ∧
    (gap_step ggZero zeroFactory unitSrc bb3 (constFiller none) 5
        gapSt10).options = gapSt10.options := by
  exact ⟨by decide, rfl⟩

/-- Like `gapSt10`, but with seep retraction still enabled. -/
def gapStT : GapState where
  full_alphas := [((1, 1), Tile.buf tmZeros)]
  distances := [((1, 1), Tile.buf (tmConst 0))]
  unseep_q := []
  filled := [((1, 1), Tile.buf tmZeros)]
  final := []
  tileq := [((1, 1), .initPx 0 0, ())]
  total_px := 0
  options := { max_gap_size := 5, retract_seeps := true }
  gc_filler_args := (5, true)
  dist_data := none

/-- Evaluation of `gap_promote_options` at concrete inputs. -/
theorem gap_promote_options_witness :
    (Tile.read ((AMap.find? gapStT.distances (1, 1)).getD .gapless) 0 0 <
      2 * N * N) ∧
    gapStT.options.retract_seeps = true ∧
    (gap_promote (1, 1) (.initPx 0 0) 5 gapStT).1.options ≠ gapStT.options ∧
    (gap_promote (1, 1) (.initPx 0 0) 5 gapStT).2 =
      GapSeeds.seedList [(0, 0, 0)] := by
  refine ⟨by decide, rfl, ?_, ?_⟩
  · exact ((gap_promote_options (1, 1) 0 0 5 gapStT).1 (by decide)).2.1 rfl
  · exact (gap_promote_options (1, 1) 0 0 5 gapStT).2.2.1

/-! Claim C3. -/

/-- The 3x3 alpha grid `[full_alphas[ftc] for ftc in nine_grid(tile_coord)]`
computed by the gap-closing loop after `prep_alphas`. -/
def gap_grid {σ : Type} (filler : Filler σ) (src : SrcSurface σ)
    (tc : Coord) (fa : AMap Tile) : List Tile :=
  (nine_grid tc).map fun ftc =>
    ((prep_alphas filler src tc fa).find? ftc).getD .empty

theorem gap_fill_phase_distances (factory : Int → Bool → GCFillerOps)
    (bb : TileBoundingBox) (tc : Coord) (s : GapSeeds)
    (pb : Nat × Nat × Nat × Nat) (st : GapState) :
    (gap_fill_phase factory bb tc s pb st).distances = st.distances := rfl

theorem gap_fill_phase_dist_data (factory : Int → Bool → GCFillerOps)
    (bb : TileBoundingBox) (tc : Coord) (s : GapSeeds)
    (pb : Nat × Nat × Nat × Nat) (st : GapState) :
    (gap_fill_phase factory bb tc s pb st).dist_data = st.dist_data := rfl

theorem gap_promote_distances (tc : Coord) (s : GapSeeds) (mg : Int)
    (st : GapState) :
    (gap_promote tc s mg st).1.distances = st.distances ∧
    (gap_promote tc s mg st).1.dist_data = st.dist_data ∧
    (gap_promote tc s mg st).1.full_alphas = st.full_alphas := by
  unfold gap_promote
  by_cases hg : (s.isTuple && decide (s.len > 1)) = true
  · rw [if_pos (by exact hg)]
    dsimp only
    by_cases hd : ((st.distances.find? tc).getD Tile.gapless).read
        s.unpack2.2 s.unpack2.1 < 2 * N * N
    · rw [if_pos (by exact hd)]
      exact ⟨rfl, rfl, rfl⟩
    · rw [if_neg (by exact hd)]
      exact ⟨rfl, rfl, rfl⟩
  · rw [if_neg (by exact hg)]
    exact ⟨rfl, rfl, rfl⟩

/-- Behaviour of the `tile_coord not in distances` block: the distance tile
stored for the coordinate, and the invariant on the pending buffer. -/
theorem gap_prepare_spec {σ : Type} (gg : GapGeometry) (src : SrcSurface σ)
    (filler : Filler σ) (mg : Int) (bb : TileBoundingBox) (tc : Coord)
    (s : GapSeeds) (st : GapState)
    (hnd : st.distances.holds tc = false)
    (hdd : st.dist_data = none ∨ st.dist_data = some (tmConst (2 * N * N))) :
    ((gap_prepare gg src filler mg bb tc s st).elim GapState.distances
        GapState.distances =
      st.distances.insert tc
        (if ((gap_grid filler src tc st.full_alphas).all Tile.isFull
            || !(find_gaps gg mg (tmConst (2 * N * N))
                  (gap_grid filler src tc st.full_alphas)).1) = true then
          .gapless
        else
          .buf (find_gaps gg mg (tmConst (2 * N * N))
            (gap_grid filler src tc st.full_alphas)).2)) ∧
    ((gap_prepare gg src filler mg bb tc s st).elim GapState.dist_data
        GapState.dist_data = none ∨
     (gap_prepare gg src filler mg bb tc s st).elim GapState.dist_data
        GapState.dist_data = some (tmConst (2 * N * N))) := by
  have hge : st.dist_data.getD (tmConst (2 * N * N)) = tmConst (2 * N * N) := by
    rcases hdd with h | h <;> simp [h]
  unfold gap_prepare
  rw [if_neg (by rw [hnd]; exact Bool.false_ne_true)]
  rw [hge]
  by_cases hc : ((gap_grid filler src tc st.full_alphas).all Tile.isFull
      || !(find_gaps gg mg (tmConst (2 * N * N))
            (gap_grid filler src tc st.full_alphas)).1) = true
  · rw [if_pos hc, if_pos (by exact hc)]
    by_cases hs : (((gap_grid filler src tc st.full_alphas).headD
        Tile.empty).isFull && !bb.crossing tc && s.isTuple) = true
    · rw [if_pos (by exact hs)]
      exact ⟨rfl, Or.inr rfl⟩
    · rw [if_neg (by exact hs)]
      exact ⟨rfl, Or.inr rfl⟩
  · rw [if_neg hc, if_neg (by exact hc)]
    exact ⟨rfl, Or.inl rfl⟩

/-- Claim C3: for a dequeued, not-yet-final tile coordinate not yet in the
distances map, the gap-closing step sets `distances[tc] = GAPLESS_TILE`
exactly when every tile of the 3x3 alpha grid is `FULL_TILE`, or the center
tile is `FULL_TILE` and the (spec-modelled) corner-gap test on the north,
east, south and west neighbour tiles passes; otherwise the fresh N-by-N
buffer initialized to `2*N*N` is handed to `find_gaps` and stored, with the
found gap sizes marked, as `distances[tc]`.  The last conjunct is the
invariant that makes the pending buffer the loop reuses equal to a fresh
one: the step leaves it `none` or fresh-valued. -/
theorem gap_distance_spec {σ : Type} (gg : GapGeometry)
    (factory : Int → Bool → GCFillerOps) (src : SrcSurface σ)
    (bb : TileBoundingBox) (filler : Filler σ) (mg : Int) (st : GapState)
    (tc : Coord) (s : GapSeeds) (rest : List (Coord × GapSeeds × Unit))
    (hq : st.tileq = (tc, s, ()) :: rest)
    (hfin : st.final.contains tc = false)
    (hnd : st.distances.holds tc = false)
    (hdd : st.dist_data = none ∨ st.dist_data = some (tmConst (2 * N * N))) :
    ((gap_step gg factory src bb filler mg st).distances.find? tc =
        some .gapless ↔
      ((gap_grid filler src tc st.full_alphas).all Tile.isFull = true ∨
       (((gap_grid filler src tc st.full_alphas).headD Tile.empty).isFull =
          true ∧
        gg.no_corner_gaps mg
          (((gap_grid filler src tc st.full_alphas).drop 1).headD .empty)
          (((gap_grid filler src tc st.full_alphas).drop 2).headD .empty)
          (((gap_grid filler src tc st.full_alphas).drop 3).headD .empty)
          (((gap_grid filler src tc st.full_alphas).drop 4).headD .empty) =
          true))) ∧
    (¬ ((gap_grid filler src tc st.full_alphas).all Tile.isFull = true ∨
        (((gap_grid filler src tc st.full_alphas).headD Tile.empty).isFull =
           true ∧
         gg.no_corner_gaps mg
           (((gap_grid filler src tc st.full_alphas).drop 1).headD .empty)
           (((gap_grid filler src tc st.full_alphas).drop 2).headD .empty)
           (((gap_grid filler src tc st.full_alphas).drop 3).headD .empty)
           (((gap_grid filler src tc st.full_alphas).drop 4).headD .empty) =
           true)) →
      (gap_step gg factory src bb filler mg st).distances.find? tc =
        some (.buf (gg.mark_gaps (tmConst (2 * N * N))
          (gap_grid filler src tc st.full_alphas)))) ∧
    ((gap_step gg factory src bb filler mg st).dist_data = none ∨
     (gap_step gg factory src bb filler mg st).dist_data =
       some (tmConst (2 * N * N))) := by
  have hand : ∀ (a b : Bool), (a && b) = true ↔ (a = true ∧ b = true) := by
    intro a b
    cases a <;> cases b <;> simp
  have horr : ∀ (a b : Bool), (a || b) = true ↔ (a = true ∨ b = true) := by
    intro a b
    cases a <;> cases b <;> simp
  have h' : ¬ tc ∈ st.final := by simpa using hfin
  have hpre := gap_prepare_spec gg src filler mg bb tc s
    { st with tileq := rest } hnd hdd
  dsimp only at hpre
  have hstep : (gap_step gg factory src bb filler mg st).distances =
      (gap_prepare gg src filler mg bb tc s
        { st with tileq := rest }).elim GapState.distances
        GapState.distances ∧
      (gap_step gg factory src bb filler mg st).dist_data =
      (gap_prepare gg src filler mg bb tc s
        { st with tileq := rest }).elim GapState.dist_data
        GapState.dist_data := by
    rw [gap_step]
    simp only [hq]
    rw [if_neg (by simpa using h')]
    cases hpr : gap_prepare gg src filler mg bb tc s
        { st with tileq := rest } with
    | inl st1 => exact ⟨rfl, rfl⟩
    | inr st1 =>
      constructor
      · show (gap_fill_phase factory bb tc _ _ _).distances = st1.distances
        rw [gap_fill_phase_distances]
        exact (gap_promote_distances tc s mg st1).1
      · show (gap_fill_phase factory bb tc _ _ _).dist_data = st1.dist_data
        rw [gap_fill_phase_dist_data]
        exact (gap_promote_distances tc s mg st1).2.1
  have hcond : (((gap_grid filler src tc st.full_alphas).all Tile.isFull
      || !(find_gaps gg mg (tmConst (2 * N * N))
            (gap_grid filler src tc st.full_alphas)).1) = true) ↔
      ((gap_grid filler src tc st.full_alphas).all Tile.isFull = true ∨
       (((gap_grid filler src tc st.full_alphas).headD Tile.empty).isFull =
          true ∧
        gg.no_corner_gaps mg
          (((gap_grid filler src tc st.full_alphas).drop 1).headD .empty)
          (((gap_grid filler src tc st.full_alphas).drop 2).headD .empty)
          (((gap_grid filler src tc st.full_alphas).drop 3).headD .empty)
          (((gap_grid filler src tc st.full_alphas).drop 4).headD .empty) =
          true)) := by
    rw [find_gaps]
    by_cases hfg : (((gap_grid filler src tc st.full_alphas).headD
        Tile.empty).isFull && gg.no_corner_gaps mg
          (((gap_grid filler src tc st.full_alphas).drop 1).headD .empty)
          (((gap_grid filler src tc st.full_alphas).drop 2).headD .empty)
          (((gap_grid filler src tc st.full_alphas).drop 3).headD .empty)
          (((gap_grid filler src tc st.full_alphas).drop 4).headD .empty))
        = true
    · rw [if_pos (by exact hfg)]
      constructor
      · intro _
        exact Or.inr ((hand _ _).mp hfg)
      · intro _
        simp
    · rw [if_neg (by exact hfg)]
      constructor
      · intro h1
        rcases (horr _ _).mp h1 with hall | hfalse
        · exact Or.inl hall
        · exact absurd hfalse (by simp)
      · intro hor2
        rcases hor2 with hall | hand2
        · rw [hall]
          simp
        · exact absurd ((hand _ _).mpr hand2) hfg
  refine ⟨?_, ?_, ?_⟩
  · rw [hstep.1, hpre.1, AMap.find?_insert_self]
    by_cases hc : ((gap_grid filler src tc st.full_alphas).all Tile.isFull
        || !(find_gaps gg mg (tmConst (2 * N * N))
              (gap_grid filler src tc st.full_alphas)).1) = true
    · rw [if_pos hc]
      exact ⟨fun _ => hcond.mp hc, fun _ => rfl⟩
    · rw [if_neg hc]
      constructor
      · intro heq
        exact absurd (Option.some.inj heq) (fun hh => Tile.noConfusion hh)
      · intro hor2
        exact absurd (hcond.mpr hor2) hc
  · intro hnot
    have hc : ¬ ((gap_grid filler src tc st.full_alphas).all Tile.isFull
        || !(find_gaps gg mg (tmConst (2 * N * N))
              (gap_grid filler src tc st.full_alphas)).1) = true := fun hcc =>
      hnot (hcond.mp hcc)
    rw [hstep.1, hpre.1, if_neg hc, AMap.find?_insert_self]
    have hnc : ¬ ((((gap_grid filler src tc st.full_alphas).headD
        Tile.empty).isFull && gg.no_corner_gaps mg
          (((gap_grid filler src tc st.full_alphas).drop 1).headD .empty)
          (((gap_grid filler src tc st.full_alphas).drop 2).headD .empty)
          (((gap_grid filler src tc st.full_alphas).drop 3).headD .empty)
          (((gap_grid filler src tc st.full_alphas).drop 4).headD .empty))
        = true) := by
      intro hfg
      exact hnot (Or.inr ((hand _ _).mp hfg))
    have hsnd : (find_gaps gg mg (tmConst (2 * N * N))
        (gap_grid filler src tc st.full_alphas)).2 =
        gg.mark_gaps (tmConst (2 * N * N))
          (gap_grid filler src tc st.full_alphas) := by
      rw [find_gaps, if_neg (by exact hnc)]
    rw [hsnd]
  · rw [hstep.2]
    exact hpre.2

/-- A fresh gap-closing state about to process its initial tile. -/
def gapStC3 : GapState where
  full_alphas := []
  distances := []
  unseep_q := []
  filled := []
  final := []
  tileq := [((1, 1), .initPx 0 0, ())]
  total_px := 0
  options := { max_gap_size := 5, retract_seeps := true }
  gc_filler_args := (5, true)
  dist_data := none

/-- Evaluation of `gap_distance_spec` at a concrete input: a non-uniform
neighbourhood where gaps are found, so the marked fresh buffer is stored. -/
theorem gap_distance_spec_witness :
    gapStC3.tileq = ((1, 1), GapSeeds.initPx 0 0, ()) :: [] ∧
    gapStC3.final.contains (1, 1) = false ∧
    gapStC3.distances.holds (1, 1) = false ∧
    (gap_step ggZero zeroFactory unitSrc bb3 (constFiller none) 5
        gapStC3).distances.find? (1, 1) =
      some (.buf (ggZero.mark_gaps (tmConst (2 * N * N))
        (gap_grid (constFiller none) unitSrc (1, 1) gapStC3.full_alphas))) := by
  refine ⟨rfl, rfl, rfl, ?_⟩
  refine (gap_distance_spec ggZero zeroFactory unitSrc bb3 (constFiller none)
      5 gapStC3 (1, 1) (.initPx 0 0) [] rfl rfl rfl (Or.inl rfl)).2.1 ?_
  intro hcase
  rcases hcase with h1 | ⟨h2, _⟩
  · exact Bool.noConfusion h1
  · exact Bool.noConfusion h2

/-! Claim C8: predicates and helper lemmas. -/

/-- Every value of the map is an owned buffer, or `FULL_TILE` at an
already-final coordinate (so it is never handed to a fill kernel again). -/
def SentinelSafe (fin : List Coord) (filled : AMap Tile) : Prop :=
  ∀ tc t, filled.find? tc = some t →
    (∃ d, t = Tile.buf d) ∨ (t = Tile.full ∧ fin.contains tc = true)

/-- During seep retraction: every value is an owned buffer, or `FULL_TILE`
not yet visited (not yet backed up). -/
def UnseepSafe (st : UnseepState) : Prop :=
  ∀ tc t, st.filled.find? tc = some t →
    (∃ d, t = Tile.buf d) ∨ (t = Tile.full ∧ st.backup.holds tc = false)

/-- Invariant of the scanline loop: the filled map is sentinel-safe and the
uniform tile cache holds only owned buffers. -/
def ScanSafe (st : ScanState) : Prop :=
  SentinelSafe st.skip.final st.filled ∧
  ∀ a u, st.skip.uniform_tiles.lookup a = some u → ∃ d, u = Tile.buf d

theorem sentinelSafe_insert_buf (fin : List Coord) (m : AMap Tile)
    (tc : Coord) (d : TMat) (h : SentinelSafe fin m) :
    SentinelSafe fin (m.insert tc (.buf d)) := by
  intro tc' t' h'
  rw [AMap.find?_insert] at h'
  by_cases he : tc = tc'
  · rw [if_pos he] at h'
    exact Or.inl ⟨d, (Option.some.inj h').symm⟩
  · rw [if_neg he] at h'
    exact h tc' t' h'

theorem contains_cons_of (fin : List Coord) (a tc : Coord)
    (h : fin.contains tc = true) : (a :: fin).contains tc = true := by
  have hm : tc ∈ fin := by simpa using h
  simp [hm]

theorem sentinelSafe_mono (fin : List Coord) (a : Coord) (m : AMap Tile)
    (h : SentinelSafe fin m) : SentinelSafe (a :: fin) m := by
  intro tc t ht
  rcases h tc t ht with hb | ⟨hf, hc⟩
  · exact Or.inl hb
  · exact Or.inr ⟨hf, contains_cons_of fin a tc hc⟩

theorem sentinelSafe_insert_full (fin : List Coord) (m : AMap Tile)
    (tc : Coord) (h : SentinelSafe fin m) :
    SentinelSafe (tc :: fin) (m.insert tc .full) := by
  intro tc' t' h'
  rw [AMap.find?_insert] at h'
  by_cases he : tc = tc'
  · rw [if_pos he] at h'
    refine Or.inr ⟨(Option.some.inj h').symm, ?_⟩
    subst he
    simp
  · rw [if_neg he] at h'
    exact sentinelSafe_mono fin tc m h tc' t' h'

theorem sentinelSafe_ensure (fin : List Coord) (m : AMap Tile) (tc : Coord)
    (h : SentinelSafe fin m) : SentinelSafe fin (ensure_filled m tc) := by
  unfold ensure_filled
  by_cases hm : (m.holds tc) = true
  · rw [if_pos (by exact hm)]
    exact h
  · rw [if_neg (by exact hm)]
    exact sentinelSafe_insert_buf fin m tc tmZeros h

theorem cacheSafe_insert (cache : List (Nat × Tile)) (alpha : Nat) (d : TMat)
    (hu : ∀ a u, cache.lookup a = some u → ∃ e, u = Tile.buf e) :
    ∀ a u, ((alpha, Tile.buf d) :: cache).lookup a = some u →
      ∃ e, u = Tile.buf e := by
  intro a u h
  rw [List.lookup] at h
  cases hbe : a == alpha with
  | true =>
    rw [hbe] at h
    exact ⟨d, (Option.some.inj h).symm⟩
  | false =>
    rw [hbe] at h
    exact hu a u h

theorem skipper_check_safe {σ : Type} (bb : TileBoundingBox)
    (filler : Filler σ) (src : SrcSurface σ) (tc : Coord) (t : σ)
    (filled : AMap Tile) (fd : Nat) (st : SkipState)
    (hs : SentinelSafe st.final filled)
    (hu : ∀ a u, st.uniform_tiles.lookup a = some u → ∃ d, u = Tile.buf d) :
    SentinelSafe (skipper_check bb filler src tc t filled fd st).2.2.final
      (skipper_check bb filler src tc t filled fd st).2.1 ∧
    (∀ a u, ((skipper_check bb filler src tc t filled fd
        st).2.2.uniform_tiles.lookup a) = some u → ∃ d, u = Tile.buf d) := by
  unfold skipper_check
  by_cases h1 : (filled.holds tc || bb.crossing tc) = true
  · rw [if_pos (by exact h1)]
    exact ⟨hs, hu⟩
  · rw [if_neg (by exact h1)]
    cases hcl : filler.tile_uniformity (src.isEmptyRGBA t) t with
    | none => exact ⟨hs, hu⟩
    | some alpha =>
      dsimp only
      by_cases hz : alpha = 0
      · rw [if_pos (by exact hz)]
        exact ⟨sentinelSafe_mono st.final tc filled hs, hu⟩
      · rw [if_neg (by exact hz)]
        by_cases hop : alpha = OPAQUE
        · rw [if_pos (by exact hop)]
          exact ⟨sentinelSafe_insert_full st.final filled tc hs, hu⟩
        · rw [if_neg (by exact hop)]
          unfold uniform_tile
          cases hl : List.lookup alpha st.uniform_tiles with
          | some u =>
            obtain ⟨d, hd⟩ := hu alpha u hl
            subst hd
            exact ⟨sentinelSafe_insert_buf _ filled tc d
              (sentinelSafe_mono st.final tc filled hs), hu⟩
          | none =>
            refine ⟨sentinelSafe_insert_buf _ filled tc (tmConst alpha)
              (sentinelSafe_mono st.final tc filled hs), ?_⟩
            exact cacheSafe_insert st.uniform_tiles alpha (tmConst alpha) hu

theorem scanline_step_safe {σ : Type} (src : SrcSurface σ)
    (bb : TileBoundingBox) (filler : Filler σ) (st : ScanState)
    (h : ScanSafe st) : ScanSafe (scanline_step src bb filler st) := by
  obtain ⟨hs, hu⟩ := h
  unfold scanline_step
  cases hq : st.tileq with
  | nil => exact ⟨hs, hu⟩
  | cons rec rest =>
    obtain ⟨tc, s, fd⟩ := rec
    dsimp only
    by_cases hf : (st.skip.final.contains tc) = true
    · rw [if_pos (by exact hf)]
      exact ⟨hs, hu⟩
    · rw [if_neg (by exact hf)]
      have hsafe := skipper_check_safe bb filler src tc (src.tiles tc)
        st.filled fd st.skip hs hu
      cases hc : (skipper_check bb filler src tc (src.tiles tc) st.filled fd
          st.skip).1 with
      | some overflows =>
        exact hsafe
      | none =>
        exact ⟨sentinelSafe_insert_buf _ _ tc _
          (sentinelSafe_ensure _ _ tc hsafe.1), hsafe.2⟩

theorem gap_promote_state (tc : Coord) (s : GapSeeds) (mg : Int)
    (st : GapState) :
    (gap_promote tc s mg st).1.filled = st.filled ∧
    (gap_promote tc s mg st).1.final = st.final := by
  unfold gap_promote
  by_cases hg : (s.isTuple && decide (s.len > 1)) = true
  · rw [if_pos (by exact hg)]
    dsimp only
    by_cases hd : ((st.distances.find? tc).getD Tile.gapless).read
        s.unpack2.2 s.unpack2.1 < 2 * N * N
    · rw [if_pos (by exact hd)]
      exact ⟨rfl, rfl⟩
    · rw [if_neg (by exact hd)]
      exact ⟨rfl, rfl⟩
  · rw [if_neg (by exact hg)]
    exact ⟨rfl, rfl⟩

theorem gap_prepare_safe {σ : Type} (gg : GapGeometry) (src : SrcSurface σ)
    (filler : Filler σ) (mg : Int) (bb : TileBoundingBox) (tc : Coord)
    (s : GapSeeds) (st : GapState)
    (h : SentinelSafe st.final st.filled) :
    SentinelSafe
      ((gap_prepare gg src filler mg bb tc s st).elim GapState.final
        GapState.final)
      ((gap_prepare gg src filler mg bb tc s st).elim GapState.filled
        GapState.filled) := by
  unfold gap_prepare
  by_cases h1 : (st.distances.holds tc) = true
  · rw [if_pos (by exact h1)]
    exact h
  · rw [if_neg (by exact h1)]
    by_cases hc : ((gap_grid filler src tc st.full_alphas).all Tile.isFull
        || !(find_gaps gg mg (st.dist_data.getD (tmConst (2 * N * N)))
              (gap_grid filler src tc st.full_alphas)).1) = true
    · rw [if_pos (by exact hc)]
      by_cases hs : (((gap_grid filler src tc st.full_alphas).headD
          Tile.empty).isFull && !bb.crossing tc && s.isTuple) = true
      · rw [if_pos (by exact hs)]
        exact sentinelSafe_insert_full st.final st.filled tc h
      · rw [if_neg (by exact hs)]
        exact sentinelSafe_insert_buf st.final st.filled tc tmZeros h
    · rw [if_neg (by exact hc)]
      exact sentinelSafe_insert_buf st.final st.filled tc tmZeros h

theorem gap_fill_phase_safe (factory : Int → Bool → GCFillerOps)
    (bb : TileBoundingBox) (tc : Coord) (s : GapSeeds)
    (pb : Nat × Nat × Nat × Nat) (st : GapState)
    (h : SentinelSafe st.final st.filled) :
    SentinelSafe (gap_fill_phase factory bb tc s pb st).final
      (gap_fill_phase factory bb tc s pb st).filled := by
  unfold gap_fill_phase
  dsimp only
  by_cases hp : ((factory st.gc_filler_args.1 st.gc_filler_args.2).fill
      ((st.full_alphas.find? tc).getD .empty)
      ((st.distances.find? tc).getD .gapless)
      ((st.filled.find? tc).getD (.buf tmZeros)) s pb).2.2.2 = N * N
  · rw [if_pos (by exact hp)]
    exact sentinelSafe_insert_full st.final _ tc
      (sentinelSafe_insert_buf st.final st.filled tc _ h)
  · rw [if_neg (by exact hp)]
    exact sentinelSafe_insert_buf st.final st.filled tc _ h

theorem gap_step_safe {σ : Type} (gg : GapGeometry)
    (factory : Int → Bool → GCFillerOps) (src : SrcSurface σ)
    (bb : TileBoundingBox) (filler : Filler σ) (mg : Int) (st : GapState)
    (h : SentinelSafe st.final st.filled) :
    SentinelSafe (gap_step gg factory src bb filler mg st).final
      (gap_step gg factory src bb filler mg st).filled := by
  unfold gap_step
  cases hq : st.tileq with
  | nil => exact h
  | cons rec rest =>
    obtain ⟨tc, s, u⟩ := rec
    dsimp only
    by_cases hf : (GapState.final { st with tileq := rest }).contains tc = true
    · rw [if_pos (by exact hf)]
      exact h
    · rw [if_neg (by exact hf)]
      have hpre := gap_prepare_safe gg src filler mg bb tc s
        { st with tileq := rest } h
      cases hpr : gap_prepare gg src filler mg bb tc s
          { st with tileq := rest } with
      | inl st1 =>
        rw [hpr] at hpre
        exact hpre
      | inr st1 =>
        rw [hpr] at hpre
        have hpro := gap_promote_state tc s mg st1
        refine gap_fill_phase_safe factory bb tc _ _ _ ?_
        rw [hpro.1, hpro.2]
        exact hpre

theorem ensure_backup_safe (filled backup : AMap Tile) (tc : Coord)
    (h : ∀ tc' t, filled.find? tc' = some t →
      (∃ d, t = Tile.buf d) ∨ (t = Tile.full ∧ backup.holds tc' = false)) :
    ∀ tc' t, (ensure_backup filled backup tc).1.find? tc' = some t →
      (∃ d, t = Tile.buf d) ∨
      (t = Tile.full ∧
        AMap.holds (ensure_backup filled backup tc).2 tc' = false) := by
  unfold ensure_backup
  by_cases hb : (backup.holds tc) = true
  · rw [if_pos (by exact hb)]
    exact h
  · rw [if_neg (by exact hb)]
    cases hft : filled.find? tc with
    | none => exact h
    | some t0 =>
      cases t0 with
      | full =>
        intro tc' t h'
        rw [AMap.find?_insert] at h'
        by_cases he : tc = tc'
        · rw [if_pos he] at h'
          exact Or.inl ⟨_, (Option.some.inj h').symm⟩
        · rw [if_neg he] at h'
          rcases h tc' t h' with hbuf | ⟨hfull, hnb⟩
          · exact Or.inl hbuf
          · refine Or.inr ⟨hfull, ?_⟩
            unfold AMap.holds
            rw [AMap.find?_insert, if_neg he]
            exact hnb
      | empty =>
        intro tc' t h'
        rcases h tc' t h' with hbuf | ⟨hfull, hnb⟩
        · exact Or.inl hbuf
        · refine Or.inr ⟨hfull, ?_⟩
          unfold AMap.holds
          rw [AMap.find?_insert]
          by_cases he : tc = tc'
          · subst he
            rcases h tc Tile.empty hft with ⟨d, hd⟩ | ⟨hfu, _⟩
            · exact absurd hd (fun hh => Tile.noConfusion hh)
            · exact absurd hfu (fun hh => Tile.noConfusion hh)
          · rw [if_neg he]
            exact hnb
      | gapless =>
        intro tc' t h'
        rcases h tc' t h' with hbuf | ⟨hfull, hnb⟩
        · exact Or.inl hbuf
        · refine Or.inr ⟨hfull, ?_⟩
          unfold AMap.holds
          rw [AMap.find?_insert]
          by_cases he : tc = tc'
          · subst he
            rcases h tc Tile.gapless hft with ⟨d, hd⟩ | ⟨hfu, _⟩
            · exact absurd hd (fun hh => Tile.noConfusion hh)
            · exact absurd hfu (fun hh => Tile.noConfusion hh)
          · rw [if_neg he]
            exact hnb
      | buf d0 =>
        intro tc' t h'
        rcases h tc' t h' with hbuf | ⟨hfull, hnb⟩
        · exact Or.inl hbuf
        · refine Or.inr ⟨hfull, ?_⟩
          unfold AMap.holds
          rw [AMap.find?_insert]
          by_cases he : tc = tc'
          · subst he
            have := h tc t h'
            rcases this with ⟨d, hd⟩ | ⟨hfu, hnb2⟩
            · subst hfull
              exact absurd hd (fun hh => Tile.noConfusion hh)
            · rw [hft] at h'
              have h3 : Tile.buf d0 = t := Option.some.inj h'
              rw [← h3] at hfull
              exact absurd hfull (fun hh => Tile.noConfusion hh)
          · rw [if_neg he]
            exact hnb

theorem unseep_step_safe (factory : Int → Bool → GCFillerOps)
    (bb : TileBoundingBox) (gcArgs : Int × Bool) (dists : AMap Tile)
    (st : UnseepState) (h : UnseepSafe st) :
    UnseepSafe (unseep_step factory bb gcArgs dists st) := by
  unfold unseep_step
  cases hq : st.unseep_q with
  | nil => exact h
  | cons rec rest =>
    obtain ⟨tc, s, ini⟩ := rec
    dsimp only
    by_cases hg : (!dists.holds tc || !st.filled.holds tc) = true
    · rw [if_pos (by exact hg)]
      exact h
    · rw [if_neg (by exact hg)]
      intro tc' t h'
      dsimp only at h'
      rw [AMap.find?_insert] at h'
      by_cases he : tc = tc'
      · rw [if_pos he] at h'
        exact Or.inl ⟨_, (Option.some.inj h').symm⟩
      · rw [if_neg he] at h'
        exact ensure_backup_safe st.filled st.backup tc h tc' t h'

/-- Claim C8: the sentinel tiles are never written into by the fill.  The
buffers handed to the write kernels are always owned buffers: (1) the
scanline output tile handed to `Filler.fill`; (2) the output tile handed to
`GapClosingFiller.fill`; (3) when seep retraction first visits a tile whose
`filled` entry is `FULL_TILE`, it backs the sentinel up and replaces the
entry with a freshly allocated `1 <<< 15` buffer before `unseep` writes;
(4) the tile handed to `unseep` is therefore always an owned buffer.
Conjuncts (5)-(7) show the three loops preserve the invariants these facts
rest on, (8) that the retraction loop starts in its invariant, and (9) that
the main-loop invariant entails the retraction entry condition.  Rollback
and compositing only move tile references and are write-free by
construction. -/
theorem sentinels_never_written (σ : Type) :
    (∀ (filled : AMap Tile) (fin : List Coord) (tc : Coord),
       SentinelSafe fin filled → fin.contains tc = false →
       ∃ d, scan_fill_target filled tc = Tile.buf d) ∧
    (∀ (st : GapState) (tc : Coord),
       SentinelSafe st.final st.filled → st.final.contains tc = false →
       ∃ d, (st.filled.find? tc).getD (Tile.buf tmZeros) = Tile.buf d) ∧
    (∀ (filled backup : AMap Tile) (tc : Coord),
       backup.holds tc = false → filled.find? tc = some Tile.full →
       ensure_backup filled backup tc =
         (filled.insert tc (Tile.buf (tmConst (1 <<< 15))),
          backup.insert tc Tile.full)) ∧
    (∀ (st : UnseepState) (tc : Coord),
       UnseepSafe st → st.filled.holds tc = true →
       ∃ d, ((ensure_backup st.filled st.backup tc).1.find? tc).getD
         Tile.empty = Tile.buf d) ∧
    (∀ (src : SrcSurface σ) (bb : TileBoundingBox) (filler : Filler σ)
       (st : ScanState), ScanSafe st →
       ScanSafe (scanline_step src bb filler st)) ∧
    (∀ (gg : GapGeometry) (factory : Int → Bool → GCFillerOps)
       (src : SrcSurface σ) (bb : TileBoundingBox) (filler : Filler σ)
       (mg : Int) (st : GapState),
       SentinelSafe st.final st.filled →
       SentinelSafe (gap_step gg factory src bb filler mg st).final
         (gap_step gg factory src bb filler mg st).filled) ∧
    (∀ (factory : Int → Bool → GCFillerOps) (bb : TileBoundingBox)
       (gcArgs : Int × Bool) (dists : AMap Tile) (st : UnseepState),
       UnseepSafe st →
       UnseepSafe (unseep_step factory bb gcArgs dists st)) ∧
    (∀ (q : List (Coord × USeeds × Bool)) (filled : AMap Tile) (px : Int),
       (∀ tc t, filled.find? tc = some t →
          (∃ d, t = Tile.buf d) ∨ t = Tile.full) →
       UnseepSafe (UnseepState.mk q filled [] px)) ∧
    (∀ (fin : List Coord) (filled : AMap Tile), SentinelSafe fin filled →
       ∀ tc t, filled.find? tc = some t →
         (∃ d, t = Tile.buf d) ∨ t = Tile.full) := by
  refine ⟨?_, ?_, ?_, ?_, ?_, ?_, ?_, ?_, ?_⟩
  · intro filled fin tc hsafe hnf
    unfold scan_fill_target ensure_filled
    by_cases hm : (filled.holds tc) = true
    · rw [if_pos (by exact hm)]
      cases hft : filled.find? tc with
      | none => exact ⟨tmZeros, rfl⟩
      | some t =>
        rcases hsafe tc t hft with ⟨d, hd⟩ | ⟨hfull, hc⟩
        · subst hd
          exact ⟨d, rfl⟩
        · rw [hnf] at hc
          exact Bool.noConfusion hc
    · rw [if_neg (by exact hm)]
      rw [AMap.find?_insert_self]
      exact ⟨tmZeros, rfl⟩
  · intro st tc hsafe hnf
    cases hft : st.filled.find? tc with
    | none => exact ⟨tmZeros, rfl⟩
    | some t =>
      rcases hsafe tc t hft with ⟨d, hd⟩ | ⟨hfull, hc⟩
      · subst hd
        exact ⟨d, rfl⟩
      · rw [hnf] at hc
        exact Bool.noConfusion hc
  · intro filled backup tc hb hfull
    unfold ensure_backup
    rw [if_neg (by rw [hb]; exact Bool.false_ne_true), hfull]
  · intro st tc hsafe hh
    unfold AMap.holds at hh
    cases hft : st.filled.find? tc with
    | none =>
      rw [hft] at hh
      exact Bool.noConfusion hh
    | some t =>
      rcases hsafe tc t hft with ⟨d, hd⟩ | ⟨hfull, hnb⟩
      · unfold ensure_backup
        by_cases hb : (st.backup.holds tc) = true
        · rw [if_pos (by exact hb), hft]
          subst hd
          exact ⟨d, rfl⟩
        · rw [if_neg (by exact hb), hft]
          subst hd
          refine ⟨d, ?_⟩
          rw [hft]
          exact rfl
      · unfold ensure_backup
        rw [if_neg (by rw [hnb]; exact Bool.false_ne_true), hft]
        subst hfull
        rw [AMap.find?_insert_self]
        exact ⟨tmConst (1 <<< 15), rfl⟩
  · intro src bb filler st h
    exact scanline_step_safe src bb filler st h
  · intro gg factory src bb filler mg st h
    exact gap_step_safe gg factory src bb filler mg st h
  · intro factory bb gcArgs dists st h
    exact unseep_step_safe factory bb gcArgs dists st h
  · intro q filled px hbf tc t h'
    rcases hbf tc t h' with hb | hf
    · exact Or.inl hb
    · exact Or.inr ⟨hf, rfl⟩
  · intro fin filled hs tc t h'
    rcases hs tc t h' with hb | ⟨hf, _⟩
    · exact Or.inl hb
    · exact Or.inr hf

/-- Evaluation of `sentinels_never_written` at concrete inputs: the
first-visit replacement of a `FULL_TILE` entry, the scanline fill target,
and the buffer handed to `unseep`. -/
theorem sentinels_never_written_witness :
    ensure_backup [((0, 0), Tile.full)] [] (0, 0) =
      (([((0, 0), Tile.buf (tmConst (1 <<< 15)))], [((0, 0), Tile.full)]) :
        AMap Tile × AMap Tile) ∧
    (∃ d, scan_fill_target [] (0, 0) = Tile.buf d) ∧
    (∃ d, ((ensure_backup [((0, 0), Tile.full)] [] (0, 0)).1.find?
        (0, 0)).getD Tile.empty = Tile.buf d) := by
  refine ⟨?_, ?_, ?_⟩
  · exact (sentinels_never_written Unit).2.2.1 [((0, 0), Tile.full)] []
      (0, 0) rfl rfl
  · exact (sentinels_never_written Unit).1 [] [] (0, 0)
      (fun tc t h => Option.noConfusion h) rfl
  · refine (sentinels_never_written Unit).2.2.2.1
      (UnseepState.mk [] [((0, 0), Tile.full)] [] 0) (0, 0) ?_ rfl
    intro tc t h
    by_cases he : ((0, 0) : Coord) = tc
    · rw [AMap.find?, if_pos he] at h
      exact Or.inr ⟨(Option.some.inj h).symm, rfl⟩
    · rw [AMap.find?, if_neg he] at h
      exact Option.noConfusion h

end Floodfill
